import Mathlib

/-!
Verification development for the golf-tracking application repository.

The repository consists of Supabase edge handlers written in TypeScript
(get-courses, two variants of get-course-details, get-course-detailed-info,
an insights generator) and a React Native client (courseService.js,
TrackerScreen.js).  This file gives a shallow embedding of the parts of
that code relevant to the behavioural claims: HTTP request parsing, the
freshness check and refresh decision, the error-handling paths, the two
course transformation functions, the client-side service fallbacks, the
recent-courses computations, and the shot tracker state transitions.

Conventions of the embedding:
* JavaScript string falsiness (null / undefined / empty string) is modelled
  with Option String, an absent value being none and the empty string some
  of the empty string.
* JavaScript numbers that the code treats as opaque are modelled as Int;
  timestamps are epoch milliseconds as Int; floating point coordinates are
  modelled as Int since the code never computes with them.
* A thrown exception is an Except.error carrying the message; the outer
  try/catch of each handler maps it to the handler's 500 response.
* External effects (database lookups, upstream fetches) are parameters: a
  handler is a pure function of the request, the clock, the database
  lookup result and the outcome of the (single possible) upstream fetch.
-/

/-- Result of looking up a query-string parameter, as URLSearchParams.get
    does: the first pair with the given key, none when absent. -/
def searchParamsGet (q : List (String × String)) (k : String) : Option String :=
  (q.find? (fun kv => kv.fst == k)).map (fun kv => kv.snd)

/-- JavaScript idiom x || defaultString on a possibly absent string:
    absent or empty falls through to the default. -/
def strOr (o : Option String) (dflt : String) : String :=
  match o with
  | none => dflt
  | some s => if s = "" then dflt else s

/-- JavaScript idiom x || null on a possibly absent number: zero is falsy
    and becomes null. -/
def numOrNull (o : Option Int) : Option Int :=
  match o with
  | none => none
  | some v => if v = 0 then none else some v

/-- JavaScript idiom a || b (|| null) over two possibly absent numbers. -/
def firstNum (a b : Option Int) : Option Int :=
  match numOrNull a with
  | some v => some v
  | none => numOrNull b

/-- JavaScript idiom a || b over two possibly absent strings, where the
    overall result may still be undefined. -/
def firstStr (a b : Option String) : Option String :=
  match a with
  | some s => if s = "" then b else some s
  | none => b

/-- Truthiness of a possibly absent string: present and nonempty. -/
def optStrTruthy : Option String → Bool
  | none => false
  | some s => !(s == "")

/-- JavaScript String.prototype.split on a single-character separator,
    written structurally over the character list: splitting the empty
    string gives one empty piece, and every separator starts a new piece. -/
def splitChars (sep : Char) : List Char → List (List Char)
  | [] => [[]]
  | c :: cs =>
    let rest := splitChars sep cs
    if c = sep then [] :: rest
    else
      match rest with
      | [] => [[c]]
      | r :: rs => (c :: r) :: rs

/-- JavaScript split of a string on a single-character separator. -/
def jsSplit (sep : Char) (s : String) : List String :=
  (splitChars sep s.data).map String.mk

/-- JavaScript String.prototype.trim, written structurally over the
    character list: drop whitespace from both ends. -/
def jsTrim (s : String) : String :=
  String.mk (((s.data.dropWhile Char.isWhitespace).reverse.dropWhile
    Char.isWhitespace).reverse)

/-- Last segment of a URL pathname, as pathParts[pathParts.length - 1]
    after splitting on the slash. -/
def lastPathSegment (pathname : String) : String :=
  (jsSplit '/' pathname).getLastD ""

/-- Query-string parameter with the JavaScript default of the empty string
    (searchParams.get(k) || two quotes). -/
def paramOrEmpty (q : List (String × String)) (k : String) : String :=
  (searchParamsGet q k).getD ""

/-- One entry of a transformed tee as stored on the courses row. -/
structure Tee where
  id : String
  name : String
  color : String
  slope_men : Option Int
  slope_women : Option Int
  course_rating_men : Option Int
  course_rating_women : Option Int
  total_distance : Option Int
deriving DecidableEq

/-- One entry of a transformed hole as stored on the courses row.  The
    distances object keyed by lowercased tee name is an association list
    in insertion order. -/
structure HoleInfo where
  number : Option Int
  par_men : Option Int
  par_women : Option Int
  index_men : Option Int
  index_women : Option Int
  distances : List (String × Int)
deriving DecidableEq

/-- A green point of interest (lat/lng plus front/center/back location). -/
structure GreenPoint where
  lat : Int
  lng : Int
  location : String
deriving DecidableEq

/-- A bunker point of interest. -/
structure BunkerPoint where
  lat : Int
  lng : Int
  side : String
  location : Option String
deriving DecidableEq

/-- A hazard point of interest. -/
structure HazardPoint where
  lat : Int
  lng : Int
  hazardKind : String
deriving DecidableEq

/-- A tee point of interest. -/
structure TeePoint where
  lat : Int
  lng : Int
  name : String
deriving DecidableEq

/-- The per-hole POI record produced by get-course-detailed-info. -/
structure HolePoi where
  hole : Int
  greens : List GreenPoint
  bunkers : List BunkerPoint
  hazards : List HazardPoint
  tees : List TeePoint
deriving DecidableEq

/-- A row of the courses table.  Nullable JSONB columns are Options; the
    updated_at timestamp is epoch milliseconds. -/
structure CourseRow where
  id : String
  api_course_id : Option String
  name : String
  club_name : String
  location : String
  country : String
  latitude : Option Int
  longitude : Option Int
  num_holes : Int
  par : Option Int
  tees : Option (List Tee)
  holes : Option (List HoleInfo)
  poi : Option (List HolePoi)
  updated_at : Option Int
  created_at : Option String
deriving DecidableEq

/-- Environment variables read by the edge handlers. -/
structure Env where
  SUPABASE_URL : String
  SUPABASE_SERVICE_ROLE_KEY : String
  GOLF_API_KEY : String
deriving DecidableEq

/-- An incoming HTTP request: method, URL pathname and query parameters. -/
structure HttpReq where
  method : String
  pathname : String
  searchParams : List (String × String)
deriving DecidableEq

/-- The JSON response of a handler, modelled structurally: the status code
    and the fields the handlers actually emit.  error and timestamp are the
    fields of the JSON error bodies; course carries the spread course row of
    a success body together with its metadata flags. -/
structure HttpResponse where
  status : Nat
  error : Option String := none
  timestamp : Option String := none
  courseIdEcho : Option String := none
  course : Option CourseRow := none
  has_complete_data : Option Bool := none
  data_refreshed : Option Bool := none
  has_poi_data : Option Bool := none
  poi_feature_count : Option Nat := none
deriving DecidableEq

/-- Freshness threshold of the course refresh handlers: 90 days in
    milliseconds. -/
def FRESHNESS_THRESHOLD_MS : Int := 90 * 24 * 60 * 60 * 1000

/-- Tee data presence check of the handlers: the tees column is a non-null
    array with at least one element. -/
def hasTeeData (c : CourseRow) : Bool :=
  match c.tees with
  | none => false
  | some ts => decide (0 < ts.length)

/-- Hole data presence check of the handlers. -/
def hasHoleData (c : CourseRow) : Bool :=
  match c.holes with
  | none => false
  | some hs => decide (0 < hs.length)

/-- POI data presence check of get-course-detailed-info. -/
def hasPoiData (c : CourseRow) : Bool :=
  match c.poi with
  | none => false
  | some ps => decide (0 < ps.length)

/-- Staleness check: an updated_at more than the freshness threshold before
    the current time.  A missing updated_at is never stale. -/
def dataStale (c : CourseRow) (nowMs : Int) : Bool :=
  match c.updated_at with
  | none => false
  | some t => decide (FRESHNESS_THRESHOLD_MS < nowMs - t)

/-- Refresh decision of get-course-details for an existing row: forced
    refresh, or missing tee data, or missing hole data, or stale. -/
def needsApiRefreshDetails (forceRefresh : Bool) (c : CourseRow) (nowMs : Int) : Bool :=
  forceRefresh || !hasTeeData c || !hasHoleData c || dataStale c nowMs

/-- Refresh decision of get-course-detailed-info for an existing row:
    forced refresh, or missing POI data, or stale. -/
def needsApiRefreshDetailedInfo (forceRefresh : Bool) (c : CourseRow) (nowMs : Int) : Bool :=
  forceRefresh || !hasPoiData c || dataStale c nowMs

/-- Course identifier of get-course-details: the last path segment, or the
    courseId query parameter when the last segment is the function name. -/
def parseCourseIdDetails (req : HttpReq) : String :=
  let cid := lastPathSegment req.pathname
  if cid = "get-course-details" then paramOrEmpty req.searchParams "courseId" else cid

/-- Course identifier of get-course-detailed-info, same scheme with its own
    function name. -/
def parseCourseIdDetailedInfo (req : HttpReq) : String :=
  let cid := lastPathSegment req.pathname
  if cid = "get-course-detailed-info" then paramOrEmpty req.searchParams "courseId" else cid

/-- Forced refresh flag: the refresh query parameter compared to true. -/
def parseForceRefresh (req : HttpReq) : Bool :=
  searchParamsGet req.searchParams "refresh" == some "true"

/-- Outcome of the body of the upstream-API try block, seen from the
    handler flow: either the course row the handler ends up holding after a
    successful fetch, transform and database write, or the message of the
    exception thrown anywhere inside the block. -/
inductive ApiBranch where
  | success (row : CourseRow)
  | failure (message : String)

/-- The catch (apiError) block shared by the refresh handlers: swallow the
    failure when a prior course row exists, rethrow when it does not. -/
def catchApiError (existingCourse : Option CourseRow) (apiError : String) :
    Except String (Option CourseRow) :=
  if existingCourse.isSome then Except.ok existingCourse else Except.error apiError

/-- Condition under which get-course-details performs the upstream fetch:
    refresh needed, API key present, API course id present. -/
def detailsDoFetch (env : Env) (needsRefresh : Bool) (apiCourseId : Option String) : Bool :=
  needsRefresh && !(env.GOLF_API_KEY == "") && optStrTruthy apiCourseId

/-- The 500 catch response of the newer get-course-details handler: error
    message plus ISO timestamp. -/
def getCourseDetailsCatch (message nowIso : String) : HttpResponse :=
  { status := 500, error := some message, timestamp := some nowIso }

/-- The 500 catch response of the legacy get-course-details handler: error
    message only. -/
def getCourseDetailsLegacyCatch (message : String) : HttpResponse :=
  { status := 500, error := some message }

/-- The 500 catch response of the get-courses handler: error message only. -/
def getCoursesCatch (message : String) : HttpResponse :=
  { status := 500, error := some message }

/-- The 500 catch response of get-course-detailed-info: error message plus
    ISO timestamp. -/
def getCourseDetailedInfoCatch (message nowIso : String) : HttpResponse :=
  { status := 500, error := some message, timestamp := some nowIso }

/-- The 500 catch response of the insights generator: error message plus
    ISO timestamp. -/
def generateInsightsCatch (message nowIso : String) : HttpResponse :=
  { status := 500, error := some message, timestamp := some nowIso }

/-- Body of the newer get-course-details handler inside its try block.
    dbLookup is the single-row lookup of the courses table by id; api is the
    outcome of the one possible upstream fetch. -/
def getCourseDetailsCore (env : Env) (req : HttpReq) (nowMs : Int)
    (dbLookup : String → Option CourseRow) (api : ApiBranch) :
    Except String HttpResponse :=
  if env.SUPABASE_URL = "" ∨ env.SUPABASE_SERVICE_ROLE_KEY = "" then
    Except.error "Missing Supabase credentials in environment variables"
  else
    let courseId := parseCourseIdDetails req
    if courseId = "" then
      Except.ok { status := 400, error := some "Course ID is required" }
    else
      let existingCourse := dbLookup courseId
      let needsRefresh :=
        match existingCourse with
        | none => true
        | some c => needsApiRefreshDetails (parseForceRefresh req) c nowMs
      let apiCourseId := existingCourse.bind (fun c => c.api_course_id)
      let afterApi : Except String (Option CourseRow) :=
        if detailsDoFetch env needsRefresh apiCourseId then
          match api with
          | ApiBranch.success row => Except.ok (some row)
          | ApiBranch.failure m => catchApiError existingCourse m
        else Except.ok existingCourse
      match afterApi with
      | Except.error m => Except.error m
      | Except.ok none =>
        Except.ok { status := 404, error := some "Course not found",
                    courseIdEcho := some courseId }
      | Except.ok (some c) =>
        Except.ok { status := 200, course := some c,
                    has_complete_data := some (hasTeeData c && hasHoleData c),
                    data_refreshed := some needsRefresh }

/-- The newer get-course-details handler: OPTIONS preflight, then the try
    body with the catch mapping a thrown message to the 500 response. -/
def serveGetCourseDetails (env : Env) (req : HttpReq) (nowMs : Int) (nowIso : String)
    (dbLookup : String → Option CourseRow) (api : ApiBranch) : HttpResponse :=
  if req.method = "OPTIONS" then { status := 204 }
  else
    match getCourseDetailsCore env req nowMs dbLookup api with
    | Except.ok r => r
    | Except.error m => getCourseDetailsCatch m nowIso

/-- The legacy get-course-details handler: lookup by id, 404 on lookup
    error, raw row on success.  dbLookup none models the single() call
    reporting an error. -/
def serveGetCourseDetailsLegacy (env : Env) (req : HttpReq)
    (dbLookup : String → Option CourseRow) : HttpResponse :=
  if req.method = "OPTIONS" then { status := 204 }
  else if env.SUPABASE_URL = "" ∨ env.SUPABASE_SERVICE_ROLE_KEY = "" then
    getCourseDetailsLegacyCatch "Missing Supabase credentials in environment variables"
  else
    let courseId := parseCourseIdDetails req
    if courseId = "" then { status := 400, error := some "Course ID is required" }
    else
      match dbLookup courseId with
      | none => { status := 404, error := some "Course not found" }
      | some c => { status := 200, course := some c }

/-- Key of the database lookup of get-course-detailed-info: by row id, by
    api_course_id, or unfiltered when both identifiers are empty. -/
inductive DbKey where
  | byId (id : String)
  | byApiId (apiId : String)
  | noFilter
deriving DecidableEq

/-- Lookup key selection of get-course-detailed-info: the courses row is
    filtered by id when courseId is present, else by api_course_id. -/
def detailedInfoDbKey (courseId apiCourseIdParam : String) : DbKey :=
  if courseId ≠ "" then DbKey.byId courseId
  else if apiCourseIdParam ≠ "" then DbKey.byApiId apiCourseIdParam
  else DbKey.noFilter

/-- Total number of POI features across holes, as computed for the
    poi_feature_count field. -/
def poiFeatureCount (ps : List HolePoi) : Nat :=
  ps.foldl (fun acc hp =>
    acc + hp.greens.length + hp.bunkers.length + hp.hazards.length + hp.tees.length) 0

/-- Success response of get-course-detailed-info: the course row plus
    has_poi_data and, when the poi column is a nonempty array, the feature
    count. -/
def detailedInfoResponse (c : CourseRow) (needsRefresh : Bool) : HttpResponse :=
  match c.poi with
  | some ps =>
    if 0 < ps.length then
      { status := 200, course := some c,
        has_poi_data := some (decide (0 < poiFeatureCount ps)),
        poi_feature_count := some (poiFeatureCount ps),
        data_refreshed := some needsRefresh }
    else
      { status := 200, course := some c, has_poi_data := some false,
        data_refreshed := some needsRefresh }
  | none =>
    { status := 200, course := some c, has_poi_data := some false,
      data_refreshed := some needsRefresh }

/-- Body of get-course-detailed-info inside its try block.  The handler
    returns 404 before any fetch when no row is found; on the fetch path the
    prior row therefore always exists and the catch block always swallows
    upstream failures. -/
def getCourseDetailedInfoCore (env : Env) (req : HttpReq) (nowMs : Int)
    (dbLookup : DbKey → Option CourseRow) (api : ApiBranch) :
    Except String HttpResponse :=
  if env.SUPABASE_URL = "" ∨ env.SUPABASE_SERVICE_ROLE_KEY = "" then
    Except.error "Missing Supabase credentials in environment variables"
  else
    let courseId := parseCourseIdDetailedInfo req
    let apiCourseIdParam := paramOrEmpty req.searchParams "apiCourseId"
    if courseId = "" ∧ apiCourseIdParam = "" then
      Except.ok { status := 400, error := some "Course ID or API Course ID is required" }
    else
      match dbLookup (detailedInfoDbKey courseId apiCourseIdParam) with
      | none =>
        Except.ok { status := 404,
                    error := some "Course not found in database. Please ensure course exists by calling get-course-details first." }
      | some c =>
        let effectiveApiCourseId :=
          if apiCourseIdParam ≠ "" then some apiCourseIdParam else c.api_course_id
        let needsRefresh := needsApiRefreshDetailedInfo (parseForceRefresh req) c nowMs
        let afterApi : Except String CourseRow :=
          if detailsDoFetch env needsRefresh effectiveApiCourseId then
            match api with
            | ApiBranch.success row => Except.ok row
            | ApiBranch.failure m =>
              match catchApiError (some c) m with
              | Except.ok r => Except.ok (r.getD c)
              | Except.error e => Except.error e
          else Except.ok c
        match afterApi with
        | Except.error m => Except.error m
        | Except.ok finalCourse => Except.ok (detailedInfoResponse finalCourse needsRefresh)

/-- The get-course-detailed-info handler with its OPTIONS preflight and
    outer catch. -/
def serveGetCourseDetailedInfo (env : Env) (req : HttpReq) (nowMs : Int) (nowIso : String)
    (dbLookup : DbKey → Option CourseRow) (api : ApiBranch) : HttpResponse :=
  if req.method = "OPTIONS" then { status := 204 }
  else
    match getCourseDetailedInfoCore env req nowMs dbLookup api with
    | Except.ok r => r
    | Except.error m => getCourseDetailedInfoCatch m nowIso

/-- A tee object of the upstream golf API response, holding both the field
    names the legacy transformation reads (id, name, color, totalYards,
    totalDistance) and those the newer transformation reads (teeID, teeName,
    teeColor, the per-hole length fields).  The length1..length18 fields are
    an association list from hole number to value. -/
structure ApiTee where
  id : Option String := none
  name : Option String := none
  color : Option String := none
  teeID : Option String := none
  teeName : Option String := none
  teeColor : Option String := none
  slopeMen : Option Int := none
  slopeWomen : Option Int := none
  courseRatingMen : Option Int := none
  courseRatingWomen : Option Int := none
  totalYards : Option Int := none
  totalDistance : Option Int := none
  lengths : List (Nat × Int) := []
deriving DecidableEq

/-- Per-hole length field of a tee (the length1..length18 keys). -/
def teeLength (tee : ApiTee) (i : Nat) : Option Int :=
  (tee.lengths.find? (fun kv => kv.fst == i)).map (fun kv => kv.snd)

/-- One entry of a teeDistances array of the legacy API shape. -/
structure ApiTeeDistance where
  teeId : Option String := none
  yards : Int
deriving DecidableEq

/-- A hole object of the legacy API shape. -/
structure ApiHole where
  number : Option Int := none
  par : Option Int := none
  parMen : Option Int := none
  parWomen : Option Int := none
  index : Option Int := none
  indexMen : Option Int := none
  indexWomen : Option Int := none
  teeDistances : List ApiTeeDistance := []
deriving DecidableEq

/-- The club object of the legacy API shape. -/
structure ApiClub where
  name : Option String := none
deriving DecidableEq

/-- The location object of the legacy API shape. -/
structure ApiLocation where
  city : Option String := none
  state : Option String := none
  country : Option String := none
  latitude : Option Int := none
  longitude : Option Int := none
deriving DecidableEq

/-- A course object of the upstream API, holding the nested fields the
    legacy transformation reads (name, id, club, location, holes) and the
    flat fields the newer transformation reads (courseName, courseID,
    clubName, city, state, parsMen, indexesMen, numHoles as a parsed
    number). -/
structure ApiCourse where
  name : Option String := none
  id : Option String := none
  club : Option ApiClub := none
  location : Option ApiLocation := none
  holes : Option (List ApiHole) := none
  numHoles : Option Int := none
  par : Option Int := none
  tees : Option (List ApiTee) := none
  courseName : Option String := none
  courseID : Option String := none
  clubName : Option String := none
  city : Option String := none
  state : Option String := none
  country : Option String := none
  latitude : Option Int := none
  longitude : Option Int := none
  parsMen : Option (List Int) := none
  parsWomen : Option (List Int) := none
  indexesMen : Option (List Int) := none
  indexesWomen : Option (List Int) := none
deriving DecidableEq

/-- The upstream API response body: an optional nested course object, and
    the root object itself read as a course-shaped value (the newer handler
    may treat the root as the course). -/
structure ApiData where
  course : Option ApiCourse := none
  root : ApiCourse := {}
deriving DecidableEq

/-- The transformedCourse record the refresh handlers build from an
    upstream API response before writing it to the courses table. -/
structure TransformedCourse where
  name : Option String
  api_course_id : Option String
  club_name : String
  location : String
  country : String
  latitude : Option Int
  longitude : Option Int
  num_holes : Int
  par : Option Int
  tees : List Tee
  holes : List HoleInfo
  updated_at : String
deriving DecidableEq

/-- JavaScript object property assignment on a string-keyed map modelled as
    an association list: overwrite an existing key, else append. -/
def objInsert (m : List (String × Int)) (k : String) (v : Int) : List (String × Int) :=
  if m.any (fun kv => kv.fst == k) then
    m.map (fun kv => if kv.fst == k then (k, v) else kv)
  else m ++ [(k, v)]

/-- Tee transformation of the legacy get-course-details handler, reading
    tee.id, tee.name, tee.color and totalYards/totalDistance.  idx is the
    running one-based position used for the synthesized id. -/
def transformTeeOld (idx : Nat) (tee : ApiTee) : Tee :=
  { id := strOr tee.id ("tee_" ++ toString idx),
    name := strOr tee.name "Unnamed",
    color := strOr tee.color "#CCCCCC",
    slope_men := numOrNull tee.slopeMen,
    slope_women := numOrNull tee.slopeWomen,
    course_rating_men := numOrNull tee.courseRatingMen,
    course_rating_women := numOrNull tee.courseRatingWomen,
    total_distance := firstNum tee.totalYards tee.totalDistance }

/-- Hole transformation of the legacy handler: distances keyed by the name
    of the tee found by teeDistance.teeId among the course tees.  A tee
    without a truthy name contributes no entry (the code guards on tee and
    tee.name). -/
def transformHoleOld (courseTees : List ApiTee) (hole : ApiHole) : HoleInfo :=
  { number := hole.number,
    par_men := firstNum hole.parMen hole.par,
    par_women := firstNum hole.parWomen hole.par,
    index_men := firstNum hole.indexMen hole.index,
    index_women := firstNum hole.indexWomen hole.index,
    distances := hole.teeDistances.foldl (fun m td =>
      match courseTees.find? (fun t => t.id == td.teeId) with
      | some t =>
        match t.name with
        | some nm => if nm = "" then m else objInsert m nm.toLower td.yards
        | none => m
      | none => m) [] }

/-- Course transformation of the legacy get-course-details handler (the
    variant kept in supabase/functions/get-course-details/index.ts).  The
    code requires apiData.course; absent tees or holes arrays contribute
    empty lists. -/
def transformCourseOldVariant (apiData : ApiData) (nowIso : String) :
    Option TransformedCourse :=
  match apiData.course with
  | none => none
  | some course =>
    let transformedTees := (course.tees.getD []).enum.map
      (fun p => transformTeeOld (p.fst + 1) p.snd)
    let transformedHoles := (course.holes.getD []).map
      (transformHoleOld (course.tees.getD []))
    some { name := course.name,
           api_course_id := course.id,
           club_name := strOr (course.club.bind (fun cl => cl.name)) "",
           location := jsTrim (strOr (course.location.bind (fun l => l.city)) ""
             ++ ", " ++ strOr (course.location.bind (fun l => l.state)) ""),
           country := strOr (course.location.bind (fun l => l.country)) "",
           latitude := numOrNull (course.location.bind (fun l => l.latitude)),
           longitude := numOrNull (course.location.bind (fun l => l.longitude)),
           num_holes := (numOrNull course.numHoles).getD 18,
           par := numOrNull course.par,
           tees := transformedTees,
           holes := transformedHoles,
           updated_at := nowIso }

/-- Helper of the newer handler: sum of the truthy per-hole lengths of a
    tee over the standard 18 holes, null when the sum is not positive. -/
def calculateTotalDistance (tee : ApiTee) : Option Int :=
  let total := (List.range 18).foldl (fun acc i0 =>
    match teeLength tee (i0 + 1) with
    | some d => if d = 0 then acc else acc + d
    | none => acc) 0
  if 0 < total then some total else none

/-- Helper of the newer handler: course par as the sum of the truthy
    entries of the pars array over the effective holes, defaulting to 72. -/
def calculateCoursePar (parData : List Int) (numHoles : Int) : Int :=
  let effectiveHoles := min parData.length numHoles.toNat
  let totalPar := (List.range effectiveHoles).foldl (fun acc i =>
    match parData.get? i with
    | some v => if v = 0 then acc else acc + v
    | none => acc) 0
  if 0 < totalPar then totalPar else 72

/-- Tee transformation of the newer handler, reading teeID, teeName and
    teeColor and computing the total distance from the per-hole lengths. -/
def transformTeeNew (idx : Nat) (tee : ApiTee) : Tee :=
  { id := strOr tee.teeID ("tee_" ++ toString idx),
    name := strOr tee.teeName "Unnamed",
    color := strOr tee.teeColor "#CCCCCC",
    slope_men := numOrNull tee.slopeMen,
    slope_women := numOrNull tee.slopeWomen,
    course_rating_men := numOrNull tee.courseRatingMen,
    course_rating_women := numOrNull tee.courseRatingWomen,
    total_distance := calculateTotalDistance tee }

/-- Course extraction of the newer handler: the nested course object, or
    the root object itself when it carries tees and a courseName. -/
def extractCourseNew (apiData : ApiData) : Option ApiCourse :=
  match apiData.course with
  | some c => some c
  | none =>
    if apiData.root.tees.isSome ∧ optStrTruthy apiData.root.courseName then
      some apiData.root
    else none

/-- Entry of the pars or indexes arrays with the JavaScript fallback
    x[i] || null. -/
def listGetOrNull (l : List Int) (i : Nat) : Option Int :=
  match l.get? i with
  | some v => if v = 0 then none else some v
  | none => none

/-- Hole synthesis of the newer handler for the one-based hole number i:
    pars and indexes from the flat arrays, distances from the truthy
    per-hole lengths of each tee keyed by lowercased teeName. -/
def transformHoleNew (tees : List ApiTee) (parsMen parsWomen indexesMen indexesWomen : List Int)
    (i : Nat) : HoleInfo :=
  { number := some (Int.ofNat i),
    par_men := listGetOrNull parsMen (i - 1),
    par_women := listGetOrNull parsWomen (i - 1),
    index_men := listGetOrNull indexesMen (i - 1),
    index_women := listGetOrNull indexesWomen (i - 1),
    distances := tees.foldl (fun m tee =>
      match teeLength tee i with
      | some d =>
        if d = 0 then m
        else
          match tee.teeName with
          | some nm => objInsert m nm.toLower d
          | none => m
      | none => m) [] }

/-- Course transformation of the newer get-course-details variant (the copy
    kept alongside the get-courses handler), accepting root-level or nested
    course objects and reading the flat field names.  none models the throw
    on a response without usable course data. -/
def transformCourseNewVariant (apiData : ApiData) (nowIso : String) :
    Option TransformedCourse :=
  match extractCourseNew apiData with
  | none => none
  | some course =>
    if (course.tees.getD []).length = 0 then none
    else
      let tees := course.tees.getD []
      let transformedTees := tees.enum.map (fun p => transformTeeNew (p.fst + 1) p.snd)
      let parsMen := course.parsMen.getD []
      let parsWomen := course.parsWomen.getD []
      let indexesMen := course.indexesMen.getD []
      let indexesWomen := course.indexesWomen.getD []
      let numHoles := (numOrNull course.numHoles).getD 18
      let transformedHoles := (List.range numHoles.toNat).map
        (fun i0 => transformHoleNew tees parsMen parsWomen indexesMen indexesWomen (i0 + 1))
      some { name := firstStr course.courseName course.name,
             api_course_id := firstStr course.courseID course.id,
             club_name := strOr course.clubName "",
             location := jsTrim (strOr course.city "" ++ ", " ++ strOr course.state ""),
             country := strOr course.country "",
             latitude := numOrNull course.latitude,
             longitude := numOrNull course.longitude,
             num_holes := numHoles,
             par := some (calculateCoursePar parsMen numHoles),
             tees := transformedTees,
             holes := transformedHoles,
             updated_at := nowIso }

/-- The course columns the list endpoints select (id, name, club_name,
    location, tees). -/
structure CourseLite where
  id : String
  name : String
  club_name : String
  location : String
  tees : Option (List Tee)
deriving DecidableEq

/-- A course result entry: the selected columns plus the has_tee_data flag
    every list endpoint appends. -/
structure CourseOut where
  course : CourseLite
  has_tee_data : Bool
deriving DecidableEq

/-- The has_tee_data computation shared by all list endpoints: tees is a
    non-null array with at least one element. -/
def hasTeeFlag (tees : Option (List Tee)) : Bool :=
  match tees with
  | none => false
  | some ts => decide (0 < ts.length)

/-- Attach the has_tee_data flag to a selected course. -/
def mkCourseOut (c : CourseLite) : CourseOut :=
  { course := c, has_tee_data := hasTeeFlag c.tees }

/-- A rounds row as selected by the recent-courses queries of the client
    services (course_id and created_at, completed rounds only, ordered by
    created_at descending by the query). -/
structure RoundLite where
  course_id : String
  created_at : Int
deriving DecidableEq

/-- A rounds row of the get-courses handler recent branch, joined with its
    course columns. -/
structure RoundJoin where
  course_id : String
  created_at : Int
  courses : Option CourseLite
deriving DecidableEq

/-- Recent-courses extraction of the get-courses handler: walk the joined
    rounds (most recent first), keep the first occurrence of each joined
    course id, flag it, and slice to the limit. -/
def extractRecentCoursesGo (rows : List RoundJoin) (seen : List String)
    (acc : List CourseOut) : List CourseOut :=
  match rows with
  | [] => acc
  | r :: rest =>
    match r.courses with
    | none => extractRecentCoursesGo rest seen acc
    | some c =>
      if c.id ∈ seen then extractRecentCoursesGo rest seen acc
      else extractRecentCoursesGo rest (seen ++ [c.id]) (acc ++ [mkCourseOut c])

/-- Recent courses of the get-courses handler: unique joined courses in
    round order, sliced to the limit. -/
def extractRecentCourses (rows : List RoundJoin) (limit : Nat) : List CourseOut :=
  (extractRecentCoursesGo rows [] []).take limit

/-- Unique course ids of the courseService.js getRecentCourses fallback: a
    course id is appended when not yet present and the list is still below
    the limit. -/
def csUniqueIdsGo (rounds : List RoundLite) (limit : Nat) (acc : List String) :
    List String :=
  match rounds with
  | [] => acc
  | r :: rest =>
    if r.course_id ∉ acc ∧ acc.length < limit then
      csUniqueIdsGo rest limit (acc ++ [r.course_id])
    else csUniqueIdsGo rest limit acc

/-- Ordering step shared by the getRecentCourses implementations: for each
    unique id in order, find the corresponding course among the fetched
    courses and flag it; ids without a fetched course are skipped. -/
def csOrderCourses (ids : List String) (courses : List CourseLite) : List CourseOut :=
  ids.filterMap (fun cid =>
    (courses.find? (fun c => c.id == cid)).map mkCourseOut)

/-- Unique course ids of the part_000-style courseService getRecentCourses
    (the variant without edge calls): append unseen ids and break once the
    list has reached the limit. -/
def directUniqueIdsGo (rounds : List RoundLite) (limit : Nat) (acc : List String) :
    List String :=
  match rounds with
  | [] => acc
  | r :: rest =>
    if r.course_id ∈ acc then directUniqueIdsGo rest limit acc
    else
      let acc2 := acc ++ [r.course_id]
      if limit ≤ acc2.length then acc2 else directUniqueIdsGo rest limit acc2

/-- The direct-query getRecentCourses of the standalone courseService
    variant: recent completed rounds (given most recent first), unique
    course ids up to the limit with a break after reaching it, then course
    details re-ordered to match. -/
def getRecentCoursesDirect (rounds : List RoundLite) (courses : List CourseLite)
    (limit : Nat) : List CourseOut :=
  if rounds.isEmpty then []
  else
    let ids := directUniqueIdsGo rounds limit []
    if ids.isEmpty then [] else csOrderCourses ids courses

/-- Observable external calls of a courseService operation, in order. -/
inductive Effect where
  | edgeCall
  | dbQuery
deriving DecidableEq

/-- Outcome of a fetch to an edge function: a thrown exception, or a
    response with its ok flag and the result of parsing its JSON body. -/
inductive FetchOutcome (α : Type) where
  | exn (message : String)
  | resp (ok : Bool) (body : Except String α)

/-- Result object of a supabase-js query: data and error. -/
structure DbResult (α : Type) where
  data : Option α
  error : Option String

/-- Parsed JSON body of the get-courses edge function. -/
structure CoursesPayload where
  courses : Option (List CourseOut)
  recentCourses : Option (List CourseOut)

/-- courseService.searchCourses: short search terms return immediately; a
    non-ok edge response triggers the single direct-query fallback; a
    thrown error anywhere is caught and yields the empty list.  The second
    component records the external calls made. -/
def searchCourses (searchTerm : Option String)
    (edge : FetchOutcome CoursesPayload) (db : DbResult (List CourseLite)) :
    List CourseOut × List Effect :=
  if (match searchTerm with | none => true | some s => (jsTrim s).length < 3) then ([], [])
  else
    match edge with
    | FetchOutcome.exn _ => ([], [Effect.edgeCall])
    | FetchOutcome.resp ok body =>
      if !ok then
        match db.error with
        | some _ => ([], [Effect.edgeCall, Effect.dbQuery])
        | none => ((db.data.getD []).map mkCourseOut, [Effect.edgeCall, Effect.dbQuery])
      else
        match body with
        | Except.error _ => ([], [Effect.edgeCall])
        | Except.ok payload => (payload.courses.getD [], [Effect.edgeCall])

/-- courseService.getAllCourses, same fallback structure without the term
    check. -/
def getAllCourses (edge : FetchOutcome CoursesPayload)
    (db : DbResult (List CourseLite)) : List CourseOut × List Effect :=
  match edge with
  | FetchOutcome.exn _ => ([], [Effect.edgeCall])
  | FetchOutcome.resp ok body =>
    if !ok then
      match db.error with
      | some _ => ([], [Effect.edgeCall, Effect.dbQuery])
      | none => ((db.data.getD []).map mkCourseOut, [Effect.edgeCall, Effect.dbQuery])
    else
      match body with
      | Except.error _ => ([], [Effect.edgeCall])
      | Except.ok payload => (payload.courses.getD [], [Effect.edgeCall])

/-- courseService.getCourseById: returns the parsed course, with a single
    direct single-row query as fallback, and null on any caught error. -/
def getCourseById (edge : FetchOutcome CourseRow) (db : DbResult CourseRow) :
    Option CourseRow × List Effect :=
  match edge with
  | FetchOutcome.exn _ => (none, [Effect.edgeCall])
  | FetchOutcome.resp ok body =>
    if !ok then
      match db.error with
      | some _ => (none, [Effect.edgeCall, Effect.dbQuery])
      | none => (db.data, [Effect.edgeCall, Effect.dbQuery])
    else
      match body with
      | Except.error _ => (none, [Effect.edgeCall])
      | Except.ok c => (some c, [Effect.edgeCall])

/-- courseService.getRecentCourses: on a non-ok edge response the fallback
    queries rounds and, when rounds exist, queries their courses, so the
    fallback issues one or two database queries. -/
def getRecentCourses (userId : Option String) (limit : Nat)
    (edge : FetchOutcome (Option (List CourseOut)))
    (roundsQ : DbResult (List RoundLite)) (coursesQ : DbResult (List CourseLite)) :
    List CourseOut × List Effect :=
  if (match userId with | none => true | some s => s = "") then ([], [])
  else
    match edge with
    | FetchOutcome.exn _ => ([], [Effect.edgeCall])
    | FetchOutcome.resp ok body =>
      if !ok then
        match roundsQ.error with
        | some _ => ([], [Effect.edgeCall, Effect.dbQuery])
        | none =>
          let rounds := roundsQ.data.getD []
          if rounds.isEmpty then ([], [Effect.edgeCall, Effect.dbQuery])
          else
            let ids := csUniqueIdsGo rounds limit []
            match coursesQ.error with
            | some _ => ([], [Effect.edgeCall, Effect.dbQuery, Effect.dbQuery])
            | none =>
              (csOrderCourses ids (coursesQ.data.getD []),
               [Effect.edgeCall, Effect.dbQuery, Effect.dbQuery])
      else
        match body with
        | Except.error _ => ([], [Effect.edgeCall])
        | Except.ok payload => (payload.getD [], [Effect.edgeCall])

/-- The seven shot types of the tracker. -/
inductive ShotType where
  | teeShot
  | longShot
  | approach
  | chip
  | putts
  | sand
  | penalties
deriving DecidableEq

/-- The three shot outcomes of the tracker. -/
inductive ShotOutcome where
  | onTarget
  | slightlyOff
  | recoveryNeeded
deriving DecidableEq

/-- One tracked shot: type, result and the ISO timestamp recorded when it
    was added. -/
structure Shot where
  shotType : ShotType
  result : ShotOutcome
  timestamp : String
deriving DecidableEq

/-- Predicate used by removeShot to find a shot of the given type and
    outcome. -/
def shotMatches (t : ShotType) (o : ShotOutcome) (s : Shot) : Bool :=
  s.shotType == t && s.result == o

/-- Array.prototype.findIndex: index of the first element satisfying the
    predicate, none for the JavaScript minus one. -/
def jsFindIndex (p : α → Bool) : List α → Option Nat
  | [] => none
  | x :: xs => if p x then some 0 else (jsFindIndex p xs).map (fun i => i + 1)

/-- Per-hole state of TrackerScreen: course facts, the shots array and the
    shotCounts table. -/
structure HoleState where
  par : Option Int
  distance : Option Int
  index : Option Int
  features : List String
  shots : List Shot
  shotCounts : ShotType → ShotOutcome → Nat
  poi : Option HolePoi

/-- The initial state of every hole: empty shots, all counts zero. -/
def initialHoleState : HoleState :=
  { par := none, distance := none, index := none, features := [],
    shots := [], shotCounts := fun _ _ => 0, poi := none }

/-- addShot on one hole: push the shot and increment its count cell. -/
def addShotHole (h : HoleState) (t : ShotType) (o : ShotOutcome) (ts : String) :
    HoleState :=
  { h with
    shots := h.shots ++ [{ shotType := t, result := o, timestamp := ts }],
    shotCounts := fun t2 o2 =>
      if t2 = t ∧ o2 = o then h.shotCounts t2 o2 + 1 else h.shotCounts t2 o2 }

/-- removeShot on one hole: return unchanged when the count cell is zero;
    otherwise find the last shot of this type and outcome through reversed
    findIndex, splice it out and decrement the count cell.  When findIndex
    finds nothing the state is also unchanged. -/
def removeShotHole (h : HoleState) (t : ShotType) (o : ShotOutcome) : HoleState :=
  if h.shotCounts t o ≤ 0 then h
  else
    match jsFindIndex (shotMatches t o) h.shots.reverse with
    | none => h
    | some ri =>
      let actualIndex := h.shots.length - 1 - ri
      { h with
        shots := h.shots.take actualIndex ++ h.shots.drop (actualIndex + 1),
        shotCounts := fun t2 o2 =>
          if t2 = t ∧ o2 = o then h.shotCounts t2 o2 - 1 else h.shotCounts t2 o2 }

/-- The tracker hole map: per-hole state indexed by hole number. -/
def TrackerState : Type := Nat → HoleState

/-- The initial tracker state built in TrackerScreen. -/
def initialTrackerState : TrackerState := fun _ => initialHoleState

/-- One user operation on the tracker: addShot or removeShot at the hole
    that is current when the operation fires. -/
inductive TrackerOp where
  | add (hole : Nat) (t : ShotType) (o : ShotOutcome) (ts : String)
  | remove (hole : Nat) (t : ShotType) (o : ShotOutcome)

/-- Apply one tracker operation to the hole map. -/
def applyTrackerOp (st : TrackerState) : TrackerOp → TrackerState
  | TrackerOp.add hole t o ts =>
    fun h => if h = hole then addShotHole (st hole) t o ts else st h
  | TrackerOp.remove hole t o =>
    fun h => if h = hole then removeShotHole (st hole) t o else st h

/-- Run a sequence of tracker operations from the initial state. -/
def runTrackerOps (ops : List TrackerOp) : TrackerState :=
  ops.foldl applyTrackerOp initialTrackerState

/-- Number of shots of the given type and outcome in a shots array. -/
def countMatching (t : ShotType) (o : ShotOutcome) (shots : List Shot) : Nat :=
  (shots.filter (shotMatches t o)).length

/-- Specification of removing the most recently added matching shot: erase
    the first match of the reversed array. -/
def removeLastMatching (t : ShotType) (o : ShotOutcome) (shots : List Shot) :
    List Shot :=
  (shots.reverse.eraseP (shotMatches t o)).reverse

/-- Invariant of one hole: every shotCounts cell equals the number of
    matching entries of the shots array. -/
def CountsOK (h : HoleState) : Prop :=
  ∀ t o, h.shotCounts t o = countMatching t o h.shots

/-- Invariant of the whole tracker state. -/
def TrackerInv (st : TrackerState) : Prop := ∀ h, CountsOK (st h)

/-- First occurrence of each key in order, starting from a set of already
    seen keys: the common dedup skeleton of the recent-courses
    computations. -/
def firstByKey (key : α → String) : List α → List String → List α
  | [], _ => []
  | r :: rs, seen =>
    if key r ∈ seen then firstByKey key rs seen
    else r :: firstByKey key rs (seen ++ [key r])

/-- The time t is the most recent time of any entry with the given key. -/
def IsLatestIn (key : α → String) (time : α → Int) (rounds : List α)
    (cid : String) (t : Int) : Prop :=
  (∃ r ∈ rounds, key r = cid ∧ time r = t) ∧
  ∀ r ∈ rounds, key r = cid → time r ≤ t

/-- Ordering a recent-courses result must satisfy: the earlier course has a
    most recent round at least as recent as that of the later course. -/
def RecencyOrderBy (key : α → String) (time : α → Int) (rounds : List α)
    (c1 c2 : CourseOut) : Prop :=
  ∃ t1, IsLatestIn key time rounds c1.course.id t1 ∧
    ∀ t2, IsLatestIn key time rounds c2.course.id t2 → t2 ≤ t1

/-- Joined course of a recent-rounds row as emitted by the get-courses
    extraction. -/
def outJ (r : RoundJoin) : Option CourseOut := r.courses.map mkCourseOut

/-- Referential integrity of a joined rounds row: the join resolved and its
    id is the round's course_id. -/
def joinConsistent (r : RoundJoin) : Bool :=
  match r.courses with
  | some c => c.id == r.course_id
  | none => false

/-- Fallback branch of courseService.getRecentCourses: unique ids of the
    recent rounds up to the limit, then course rows re-ordered to match. -/
def getRecentCoursesFallback (rounds : List RoundLite) (courses : List CourseLite)
    (limit : Nat) : List CourseOut :=
  if rounds.isEmpty then [] else csOrderCourses (csUniqueIdsGo rounds limit []) courses

/-- Sample environment with all credentials present. -/
def sampleEnv : Env :=
  { SUPABASE_URL := "https://example.supabase.co",
    SUPABASE_SERVICE_ROLE_KEY := "service-role-key",
    GOLF_API_KEY := "golf-api-key" }

/-- Sample environment with no credentials. -/
def emptyEnv : Env :=
  { SUPABASE_URL := "", SUPABASE_SERVICE_ROLE_KEY := "", GOLF_API_KEY := "" }

/-- Request carrying the course id in the path. -/
def reqPathId : HttpReq :=
  { method := "GET", pathname := "/get-course-details/abc", searchParams := [] }

/-- Request to get-course-details with no identifier anywhere. -/
def reqNoId : HttpReq :=
  { method := "GET", pathname := "/get-course-details", searchParams := [] }

/-- Request to get-course-details with the id in the query string. -/
def reqQueryId : HttpReq :=
  { method := "GET", pathname := "/get-course-details",
    searchParams := [("courseId", "abc")] }

/-- Request to get-course-detailed-info with no identifier anywhere. -/
def reqNoIdDi : HttpReq :=
  { method := "GET", pathname := "/get-course-detailed-info", searchParams := [] }

/-- Request to get-course-detailed-info with the id in the path. -/
def reqPathIdDi : HttpReq :=
  { method := "GET", pathname := "/get-course-detailed-info/abc", searchParams := [] }

/-- A sample stored tee. -/
def sampleTee : Tee :=
  { id := "t1", name := "Blue", color := "#0000FF", slope_men := some 120,
    slope_women := none, course_rating_men := none, course_rating_women := none,
    total_distance := some 6500 }

/-- A sample stored hole. -/
def sampleHole : HoleInfo :=
  { number := some 1, par_men := some 4, par_women := some 4,
    index_men := some 10, index_women := some 10, distances := [("blue", 400)] }

/-- A sample stored POI record. -/
def samplePoi : HolePoi :=
  { hole := 1, greens := [{ lat := 1, lng := 2, location := "center" }],
    bunkers := [], hazards := [], tees := [] }

/-- A complete, fresh course row (updated at epoch 0). -/
def freshRow : CourseRow :=
  { id := "abc", api_course_id := some "api-1", name := "Sample Course",
    club_name := "Sample Club", location := "Town, ST", country := "US",
    latitude := none, longitude := none, num_holes := 18, par := some 72,
    tees := some [sampleTee], holes := some [sampleHole], poi := some [samplePoi],
    updated_at := some 0, created_at := none }

/-- A course row with no tee data, which alone forces a refresh. -/
def noTeesRow : CourseRow :=
  { id := "abc", api_course_id := some "api-1", name := "Sample Course",
    club_name := "Sample Club", location := "Town, ST", country := "US",
    latitude := none, longitude := none, num_holes := 18, par := some 72,
    tees := none, holes := some [sampleHole], poi := none,
    updated_at := some 0, created_at := none }

/-- API tee carrying only the newer field names. -/
def c4ApiTee : ApiTee :=
  { teeID := some "t-blue", teeName := some "Blue", teeColor := some "#0000FF",
    slopeMen := some 120 }

/-- API course answering to both transformation variants. -/
def c4ApiCourse : ApiCourse :=
  { name := some "Sunny Links", id := some "gc-1",
    club := some { name := some "Sunny Club" },
    holes := some [{ number := some 1, par := some 4 }],
    numHoles := some 1, par := some 4, tees := some [c4ApiTee],
    courseName := some "Sunny Links", courseID := some "gc-1",
    clubName := some "Sunny Club", parsMen := some [4] }

/-- API response with a nested course object. -/
def c4ApiData : ApiData := { course := some c4ApiCourse }

/-- A sample recent round. -/
def c10Round : RoundLite := { course_id := "course-1", created_at := 100 }

/-- The sample course row of that round. -/
def c10Course : CourseLite :=
  { id := "course-1", name := "Course One", club_name := "Club",
    location := "Town", tees := none }

/-- The joined form of the sample round. -/
def c10Join : RoundJoin :=
  { course_id := "course-1", created_at := 100, courses := some c10Course }

/-- Operation sequence for the tracker witness: two matching tee shots and
    one chip. -/
def c9Ops : List TrackerOp :=
  [TrackerOp.add 3 ShotType.teeShot ShotOutcome.onTarget "t1",
   TrackerOp.add 3 ShotType.teeShot ShotOutcome.onTarget "t2",
   TrackerOp.add 3 ShotType.chip ShotOutcome.slightlyOff "t3"]

/-- C1, counterexample: the get-courses handler catches an uncaught
    exception with a 500 response whose JSON body carries the error message
    but no timestamp field, so the claim that every edge handler's 500 body
    contains the message and a timestamp is false. -/
theorem getCourses_catch_lacks_timestamp :
    (getCoursesCatch "boom").status = 500 ∧
    (getCoursesCatch "boom").error = some "boom" ∧
    (getCoursesCatch "boom").timestamp = none :=
  ⟨rfl, rfl, rfl⟩

/-- C1, amended: every edge handler maps an uncaught exception to a 500
    response whose body contains the exception message; the refresh handlers
    and the insights generator additionally include an ISO timestamp, while
    the get-courses handler and the legacy get-course-details variant return
    the message only.  The serve wrappers route a thrown message to exactly
    these catch responses. -/
theorem error_catch_responses :
    (∀ message nowIso : String,
      (getCoursesCatch message).status = 500 ∧
      (getCoursesCatch message).error = some message ∧
      (getCoursesCatch message).timestamp = none ∧
      (getCourseDetailsLegacyCatch message).status = 500 ∧
      (getCourseDetailsLegacyCatch message).error = some message ∧
      (getCourseDetailsLegacyCatch message).timestamp = none ∧
      (getCourseDetailsCatch message nowIso).status = 500 ∧
      (getCourseDetailsCatch message nowIso).error = some message ∧
      (getCourseDetailsCatch message nowIso).timestamp = some nowIso ∧
      (getCourseDetailedInfoCatch message nowIso).status = 500 ∧
      (getCourseDetailedInfoCatch message nowIso).error = some message ∧
      (getCourseDetailedInfoCatch message nowIso).timestamp = some nowIso ∧
      (generateInsightsCatch message nowIso).status = 500 ∧
      (generateInsightsCatch message nowIso).error = some message ∧
      (generateInsightsCatch message nowIso).timestamp = some nowIso) ∧
    (∀ (env : Env) (req : HttpReq) (nowMs : Int) (nowIso : String)
       (dbLookup : String → Option CourseRow) (api : ApiBranch) (m : String),
      req.method ≠ "OPTIONS" →
      getCourseDetailsCore env req nowMs dbLookup api = Except.error m →
      serveGetCourseDetails env req nowMs nowIso dbLookup api =
        getCourseDetailsCatch m nowIso) ∧
    (∀ (env : Env) (req : HttpReq) (nowMs : Int) (nowIso : String)
       (dbLookup : DbKey → Option CourseRow) (api : ApiBranch) (m : String),
      req.method ≠ "OPTIONS" →
      getCourseDetailedInfoCore env req nowMs dbLookup api = Except.error m →
      serveGetCourseDetailedInfo env req nowMs nowIso dbLookup api =
        getCourseDetailedInfoCatch m nowIso) := by
  refine ⟨fun message nowIso => ?_, fun env req nowMs nowIso dbLookup api m hm hc => ?_,
    fun env req nowMs nowIso dbLookup api m hm hc => ?_⟩
  · exact ⟨rfl, rfl, rfl, rfl, rfl, rfl, rfl, rfl, rfl, rfl, rfl, rfl, rfl, rfl, rfl⟩
  · unfold serveGetCourseDetails
    rw [if_neg hm, hc]
  · unfold serveGetCourseDetailedInfo
    rw [if_neg hm, hc]

/-- C1, witness for the amended theorem: a request hitting the newer
    get-course-details handler with empty credentials yields exactly the
    500 catch response carrying the thrown message and the timestamp. -/
theorem error_catch_responses_witness :
    serveGetCourseDetails emptyEnv reqPathId 0 "2025-01-01T00:00:00.000Z"
      (fun _ => none) (ApiBranch.failure "x") =
    getCourseDetailsCatch "Missing Supabase credentials in environment variables"
      "2025-01-01T00:00:00.000Z" :=
  error_catch_responses.2.1 emptyEnv reqPathId 0 "2025-01-01T00:00:00.000Z"
    (fun _ => none) (ApiBranch.failure "x")
    "Missing Supabase credentials in environment variables" (by decide) rfl

/-- C4: the two course transformation functions disagree on the same
    upstream API response: on a response carrying the teeID/teeName field
    names, the newer variant reads them while the older variant falls back
    to the synthesized id and the Unnamed placeholder, producing different
    transformed course records. -/
theorem transform_variants_disagree :
    (transformCourseOldVariant c4ApiData "2025-01-01T00:00:00.000Z").isSome = true ∧
    (transformCourseNewVariant c4ApiData "2025-01-01T00:00:00.000Z").isSome = true ∧
    transformCourseOldVariant c4ApiData "2025-01-01T00:00:00.000Z" ≠
      transformCourseNewVariant c4ApiData "2025-01-01T00:00:00.000Z" := by
  refine ⟨rfl, rfl, fun h => ?_⟩
  exact absurd (congrArg (Option.map (fun tc => tc.tees)) h) (by decide)

/-- C8: the refresh handlers take the course identifier from the final path
    segment, falling back to the courseId query parameter exactly when that
    segment is the function's own name; get-course-detailed-info queries by
    row id when courseId is present and by the alternate apiCourseId
    otherwise; and the refresh query parameter equal to true is the forced
    refresh flag. -/
theorem course_id_and_refresh_parsing :
    ∀ req : HttpReq,
      (lastPathSegment req.pathname ≠ "get-course-details" →
        parseCourseIdDetails req = lastPathSegment req.pathname) ∧
      (lastPathSegment req.pathname = "get-course-details" →
        parseCourseIdDetails req = paramOrEmpty req.searchParams "courseId") ∧
      (lastPathSegment req.pathname ≠ "get-course-detailed-info" →
        parseCourseIdDetailedInfo req = lastPathSegment req.pathname) ∧
      (lastPathSegment req.pathname = "get-course-detailed-info" →
        parseCourseIdDetailedInfo req = paramOrEmpty req.searchParams "courseId") ∧
      (parseForceRefresh req = true ↔
        searchParamsGet req.searchParams "refresh" = some "true") ∧
      (∀ cid apiParam : String, cid ≠ "" →
        detailedInfoDbKey cid apiParam = DbKey.byId cid) ∧
      (∀ apiParam : String, apiParam ≠ "" →
        detailedInfoDbKey "" apiParam = DbKey.byApiId apiParam) := by
  intro req
  refine ⟨fun h => ?_, fun h => ?_, fun h => ?_, fun h => ?_, ?_, fun cid apiParam h => ?_,
    fun apiParam h => ?_⟩
  · unfold parseCourseIdDetails
    rw [if_neg h]
  · unfold parseCourseIdDetails
    rw [if_pos h]
  · unfold parseCourseIdDetailedInfo
    rw [if_neg h]
  · unfold parseCourseIdDetailedInfo
    rw [if_pos h]
  · unfold parseForceRefresh
    exact beq_iff_eq
  · unfold detailedInfoDbKey
    rw [if_pos h]
  · unfold detailedInfoDbKey
    rw [if_neg (fun hc => hc rfl), if_pos h]

/-- C8, witness: with the path segment equal to the function name the id
    comes from the courseId query parameter. -/
theorem course_id_and_refresh_parsing_witness :
    parseCourseIdDetails reqQueryId = "abc" := by
  have h := (course_id_and_refresh_parsing reqQueryId).2.1 (by decide)
  rw [h]
  decide

/-- Missing-or-empty characterization of the tee data check. -/
theorem hasTeeData_eq_false_iff (c : CourseRow) :
    hasTeeData c = false ↔ c.tees = none ∨ c.tees = some [] := by
  rcases h : c.tees with _ | ts
  · simp [hasTeeData, h]
  · rcases ts with _ | ⟨a, l⟩ <;> simp [hasTeeData, h]

/-- Missing-or-empty characterization of the hole data check. -/
theorem hasHoleData_eq_false_iff (c : CourseRow) :
    hasHoleData c = false ↔ c.holes = none ∨ c.holes = some [] := by
  rcases h : c.holes with _ | hs
  · simp [hasHoleData, h]
  · rcases hs with _ | ⟨a, l⟩ <;> simp [hasHoleData, h]

/-- Missing-or-empty characterization of the POI data check. -/
theorem hasPoiData_eq_false_iff (c : CourseRow) :
    hasPoiData c = false ↔ c.poi = none ∨ c.poi = some [] := by
  rcases h : c.poi with _ | ps
  · simp [hasPoiData, h]
  · rcases ps with _ | ⟨a, l⟩ <;> simp [hasPoiData, h]

/-- Staleness holds exactly on a present updated_at more than the threshold
    before now. -/
theorem dataStale_eq_true_iff (c : CourseRow) (nowMs : Int) :
    dataStale c nowMs = true ↔
      ∃ t, c.updated_at = some t ∧ FRESHNESS_THRESHOLD_MS < nowMs - t := by
  rcases h : c.updated_at with _ | t
  · simp [dataStale, h]
  · simp [dataStale, h]

/-- C2: for an existing course row the refresh decision of
    get-course-details holds exactly when the forced flag is set, tee or
    hole data is missing or empty, or updated_at is more than 90 days
    (90*24*60*60*1000 milliseconds) before now; likewise for
    get-course-detailed-info with POI data; and when the decision is false
    the handlers answer 200 straight from the row for every possible
    upstream outcome, performing no fetch. -/
theorem freshness_refresh_decision :
    (∀ (force : Bool) (c : CourseRow) (nowMs : Int),
      needsApiRefreshDetails force c nowMs = true ↔
        force = true ∨ c.tees = none ∨ c.tees = some [] ∨
        c.holes = none ∨ c.holes = some [] ∨
        (∃ t, c.updated_at = some t ∧ 90 * 24 * 60 * 60 * 1000 < nowMs - t)) ∧
    (∀ (force : Bool) (c : CourseRow) (nowMs : Int),
      needsApiRefreshDetailedInfo force c nowMs = true ↔
        force = true ∨ c.poi = none ∨ c.poi = some [] ∨
        (∃ t, c.updated_at = some t ∧ 90 * 24 * 60 * 60 * 1000 < nowMs - t)) ∧
    (∀ (env : Env) (apiCourseId : Option String),
      detailsDoFetch env false apiCourseId = false) ∧
    (∀ (env : Env) (req : HttpReq) (nowMs : Int)
       (dbLookup : String → Option CourseRow) (api : ApiBranch) (c : CourseRow),
      env.SUPABASE_URL ≠ "" → env.SUPABASE_SERVICE_ROLE_KEY ≠ "" →
      parseCourseIdDetails req ≠ "" →
      dbLookup (parseCourseIdDetails req) = some c →
      needsApiRefreshDetails (parseForceRefresh req) c nowMs = false →
      getCourseDetailsCore env req nowMs dbLookup api =
        Except.ok { status := 200, course := some c,
                    has_complete_data := some (hasTeeData c && hasHoleData c),
                    data_refreshed := some false }) ∧
    (∀ (env : Env) (req : HttpReq) (nowMs : Int)
       (dbLookup : DbKey → Option CourseRow) (api : ApiBranch) (c : CourseRow),
      env.SUPABASE_URL ≠ "" → env.SUPABASE_SERVICE_ROLE_KEY ≠ "" →
      ¬(parseCourseIdDetailedInfo req = "" ∧
        paramOrEmpty req.searchParams "apiCourseId" = "") →
      dbLookup (detailedInfoDbKey (parseCourseIdDetailedInfo req)
        (paramOrEmpty req.searchParams "apiCourseId")) = some c →
      needsApiRefreshDetailedInfo (parseForceRefresh req) c nowMs = false →
      getCourseDetailedInfoCore env req nowMs dbLookup api =
        Except.ok (detailedInfoResponse c false)) := by
  refine ⟨fun force c nowMs => ?_, fun force c nowMs => ?_, fun env apiCourseId => ?_,
    fun env req nowMs dbLookup api c h1 h2 hcid hdb hneeds => ?_,
    fun env req nowMs dbLookup api c h1 h2 hcid hdb hneeds => ?_⟩
  · unfold needsApiRefreshDetails
    simp only [Bool.or_eq_true, Bool.not_eq_true']
    rw [hasTeeData_eq_false_iff, hasHoleData_eq_false_iff, dataStale_eq_true_iff]
    show _ ↔ _ ∨ _ ∨ _ ∨ _ ∨ _ ∨
      (∃ t, c.updated_at = some t ∧ FRESHNESS_THRESHOLD_MS < nowMs - t)
    tauto
  · unfold needsApiRefreshDetailedInfo
    simp only [Bool.or_eq_true, Bool.not_eq_true']
    rw [hasPoiData_eq_false_iff, dataStale_eq_true_iff]
    show _ ↔ _ ∨ _ ∨ _ ∨
      (∃ t, c.updated_at = some t ∧ FRESHNESS_THRESHOLD_MS < nowMs - t)
    tauto
  · simp [detailsDoFetch]
  · simp [getCourseDetailsCore, detailsDoFetch, h1, h2, hcid, hdb, hneeds]
  · simp [getCourseDetailedInfoCore, detailsDoFetch, h1, h2, hcid, hdb, hneeds]

/-- C2, witness: a complete row refreshed at time 0 and requested at time 0
    is served straight from the database. -/
theorem freshness_refresh_decision_witness :
    getCourseDetailsCore sampleEnv reqPathId 0 (fun _ => some freshRow)
      (ApiBranch.failure "down") =
    Except.ok { status := 200, course := some freshRow,
                has_complete_data := some true, data_refreshed := some false } :=
  freshness_refresh_decision.2.2.2.1 sampleEnv reqPathId 0 (fun _ => some freshRow)
    (ApiBranch.failure "down") freshRow (by decide) (by decide) (by decide) rfl (by decide)

/-- C5: every course-detail GET handler answers 400 with an error message
    when the final path segment is the function's own name and the
    identifier query parameters are absent or empty. -/
theorem missing_identifier_yields_400 :
    (∀ (env : Env) (req : HttpReq) (nowMs : Int)
       (dbLookup : String → Option CourseRow) (api : ApiBranch),
      env.SUPABASE_URL ≠ "" → env.SUPABASE_SERVICE_ROLE_KEY ≠ "" →
      lastPathSegment req.pathname = "get-course-details" →
      (searchParamsGet req.searchParams "courseId" = none ∨
       searchParamsGet req.searchParams "courseId" = some "") →
      getCourseDetailsCore env req nowMs dbLookup api =
        Except.ok { status := 400, error := some "Course ID is required" }) ∧
    (∀ (env : Env) (req : HttpReq) (dbLookup : String → Option CourseRow),
      req.method ≠ "OPTIONS" →
      env.SUPABASE_URL ≠ "" → env.SUPABASE_SERVICE_ROLE_KEY ≠ "" →
      lastPathSegment req.pathname = "get-course-details" →
      (searchParamsGet req.searchParams "courseId" = none ∨
       searchParamsGet req.searchParams "courseId" = some "") →
      serveGetCourseDetailsLegacy env req dbLookup =
        { status := 400, error := some "Course ID is required" }) ∧
    (∀ (env : Env) (req : HttpReq) (nowMs : Int)
       (dbLookup : DbKey → Option CourseRow) (api : ApiBranch),
      env.SUPABASE_URL ≠ "" → env.SUPABASE_SERVICE_ROLE_KEY ≠ "" →
      lastPathSegment req.pathname = "get-course-detailed-info" →
      (searchParamsGet req.searchParams "courseId" = none ∨
       searchParamsGet req.searchParams "courseId" = some "") →
      (searchParamsGet req.searchParams "apiCourseId" = none ∨
       searchParamsGet req.searchParams "apiCourseId" = some "") →
      getCourseDetailedInfoCore env req nowMs dbLookup api =
        Except.ok { status := 400,
                    error := some "Course ID or API Course ID is required" }) := by
  have hp1 : ∀ req : HttpReq, lastPathSegment req.pathname = "get-course-details" →
      (searchParamsGet req.searchParams "courseId" = none ∨
       searchParamsGet req.searchParams "courseId" = some "") →
      parseCourseIdDetails req = "" := by
    intro req hseg hq
    unfold parseCourseIdDetails paramOrEmpty
    rcases hq with hq | hq <;> simp [hseg, hq]
  have hp2 : ∀ req : HttpReq, lastPathSegment req.pathname = "get-course-detailed-info" →
      (searchParamsGet req.searchParams "courseId" = none ∨
       searchParamsGet req.searchParams "courseId" = some "") →
      parseCourseIdDetailedInfo req = "" := by
    intro req hseg hq
    unfold parseCourseIdDetailedInfo paramOrEmpty
    rcases hq with hq | hq <;> simp [hseg, hq]
  refine ⟨fun env req nowMs dbLookup api h1 h2 hseg hq => ?_,
    fun env req dbLookup hm h1 h2 hseg hq => ?_,
    fun env req nowMs dbLookup api h1 h2 hseg hq hq2 => ?_⟩
  · simp [getCourseDetailsCore, h1, h2, hp1 req hseg hq]
  · simp [serveGetCourseDetailsLegacy, hm, h1, h2, hp1 req hseg hq]
  · have hapi : paramOrEmpty req.searchParams "apiCourseId" = "" := by
      unfold paramOrEmpty
      rcases hq2 with hq2 | hq2 <;> simp [hq2]
    simp [getCourseDetailedInfoCore, h1, h2, hp2 req hseg hq, hapi]

/-- C5, witness: requests without any identifier get the 400 responses. -/
theorem missing_identifier_yields_400_witness :
    getCourseDetailsCore sampleEnv reqNoId 0 (fun _ => none) (ApiBranch.failure "x") =
      Except.ok { status := 400, error := some "Course ID is required" } :=
  missing_identifier_yields_400.1 sampleEnv reqNoId 0 (fun _ => none)
    (ApiBranch.failure "x") (by decide) (by decide) (by decide) (Or.inl rfl)

/-- C6: when after the lookup (and the fetch attempt, which for an absent
    row never happens because the API course id only comes from the row)
    no course record exists, the handlers answer 404 with a JSON error
    body. -/
theorem absent_course_yields_404 :
    (∀ (env : Env) (req : HttpReq) (nowMs : Int)
       (dbLookup : String → Option CourseRow) (api : ApiBranch),
      env.SUPABASE_URL ≠ "" → env.SUPABASE_SERVICE_ROLE_KEY ≠ "" →
      parseCourseIdDetails req ≠ "" →
      dbLookup (parseCourseIdDetails req) = none →
      getCourseDetailsCore env req nowMs dbLookup api =
        Except.ok { status := 404, error := some "Course not found",
                    courseIdEcho := some (parseCourseIdDetails req) }) ∧
    (∀ (env : Env) (req : HttpReq) (dbLookup : String → Option CourseRow),
      req.method ≠ "OPTIONS" →
      env.SUPABASE_URL ≠ "" → env.SUPABASE_SERVICE_ROLE_KEY ≠ "" →
      parseCourseIdDetails req ≠ "" →
      dbLookup (parseCourseIdDetails req) = none →
      serveGetCourseDetailsLegacy env req dbLookup =
        { status := 404, error := some "Course not found" }) ∧
    (∀ (env : Env) (req : HttpReq) (nowMs : Int)
       (dbLookup : DbKey → Option CourseRow) (api : ApiBranch),
      env.SUPABASE_URL ≠ "" → env.SUPABASE_SERVICE_ROLE_KEY ≠ "" →
      ¬(parseCourseIdDetailedInfo req = "" ∧
        paramOrEmpty req.searchParams "apiCourseId" = "") →
      dbLookup (detailedInfoDbKey (parseCourseIdDetailedInfo req)
        (paramOrEmpty req.searchParams "apiCourseId")) = none →
      getCourseDetailedInfoCore env req nowMs dbLookup api =
        Except.ok { status := 404,
                    error := some "Course not found in database. Please ensure course exists by calling get-course-details first." }) := by
  refine ⟨fun env req nowMs dbLookup api h1 h2 hcid hdb => ?_,
    fun env req dbLookup hm h1 h2 hcid hdb => ?_,
    fun env req nowMs dbLookup api h1 h2 hcid hdb => ?_⟩
  · simp [getCourseDetailsCore, detailsDoFetch, optStrTruthy, h1, h2, hcid, hdb]
  · simp [serveGetCourseDetailsLegacy, hm, h1, h2, hcid, hdb]
  · simp [getCourseDetailedInfoCore, h1, h2, hcid, hdb]

/-- C6, witness: an id that matches no row yields the 404 with the id
    echoed. -/
theorem absent_course_yields_404_witness :
    getCourseDetailsCore sampleEnv reqPathId 0 (fun _ => none) (ApiBranch.failure "x") =
      Except.ok { status := 404, error := some "Course not found",
                  courseIdEcho := some "abc" } :=
  absent_course_yields_404.1 sampleEnv reqPathId 0 (fun _ => none)
    (ApiBranch.failure "x") (by decide) (by decide) (by decide) rfl

/-- C3: when the upstream fetch or its processing fails while a prior
    course row exists, the refresh handlers swallow the failure and answer
    200 with the (possibly stale) row; the shared catch block rethrows when
    no prior row exists, and a rethrown message reaches the outer catch as
    the 500 response. -/
theorem api_failure_swallowed_with_prior_row :
    (∀ (env : Env) (req : HttpReq) (nowMs : Int) (nowIso : String)
       (dbLookup : String → Option CourseRow) (c : CourseRow) (m : String),
      req.method ≠ "OPTIONS" →
      env.SUPABASE_URL ≠ "" → env.SUPABASE_SERVICE_ROLE_KEY ≠ "" →
      parseCourseIdDetails req ≠ "" →
      dbLookup (parseCourseIdDetails req) = some c →
      detailsDoFetch env (needsApiRefreshDetails (parseForceRefresh req) c nowMs)
        c.api_course_id = true →
      serveGetCourseDetails env req nowMs nowIso dbLookup (ApiBranch.failure m) =
        { status := 200, course := some c,
          has_complete_data := some (hasTeeData c && hasHoleData c),
          data_refreshed := some true }) ∧
    (∀ (env : Env) (req : HttpReq) (nowMs : Int) (nowIso : String)
       (dbLookup : DbKey → Option CourseRow) (c : CourseRow) (m : String),
      req.method ≠ "OPTIONS" →
      env.SUPABASE_URL ≠ "" → env.SUPABASE_SERVICE_ROLE_KEY ≠ "" →
      ¬(parseCourseIdDetailedInfo req = "" ∧
        paramOrEmpty req.searchParams "apiCourseId" = "") →
      dbLookup (detailedInfoDbKey (parseCourseIdDetailedInfo req)
        (paramOrEmpty req.searchParams "apiCourseId")) = some c →
      serveGetCourseDetailedInfo env req nowMs nowIso dbLookup (ApiBranch.failure m) =
        detailedInfoResponse c
          (needsApiRefreshDetailedInfo (parseForceRefresh req) c nowMs)) ∧
    (∀ m : String, catchApiError none m = Except.error m) ∧
    (∀ (c : CourseRow) (m : String), catchApiError (some c) m = Except.ok (some c)) ∧
    (∀ (env : Env) (req : HttpReq) (nowMs : Int) (nowIso : String)
       (dbLookup : String → Option CourseRow) (api : ApiBranch) (m : String),
      req.method ≠ "OPTIONS" →
      getCourseDetailsCore env req nowMs dbLookup api = Except.error m →
      (serveGetCourseDetails env req nowMs nowIso dbLookup api).status = 500 ∧
      (serveGetCourseDetails env req nowMs nowIso dbLookup api).error = some m) := by
  refine ⟨fun env req nowMs nowIso dbLookup c m hm h1 h2 hcid hdb hfetch => ?_,
    fun env req nowMs nowIso dbLookup c m hm h1 h2 hcid hdb => ?_,
    fun m => rfl, fun c m => rfl,
    fun env req nowMs nowIso dbLookup api m hm hc => ?_⟩
  · have hneeds : needsApiRefreshDetails (parseForceRefresh req) c nowMs = true := by
      revert hfetch
      unfold detailsDoFetch
      cases needsApiRefreshDetails (parseForceRefresh req) c nowMs <;> simp
    unfold serveGetCourseDetails
    rw [if_neg hm]
    simp [getCourseDetailsCore, catchApiError, h1, h2, hcid, hdb, hneeds, hfetch]
  · unfold serveGetCourseDetailedInfo
    rw [if_neg hm]
    by_cases hfetch : detailsDoFetch env
        (needsApiRefreshDetailedInfo (parseForceRefresh req) c nowMs)
        (if paramOrEmpty req.searchParams "apiCourseId" ≠ ""
         then some (paramOrEmpty req.searchParams "apiCourseId")
         else c.api_course_id) = true
    · simp [getCourseDetailedInfoCore, catchApiError, h1, h2, hcid, hdb, hfetch]
    · simp [getCourseDetailedInfoCore, catchApiError, h1, h2, hcid, hdb, hfetch]
  · unfold serveGetCourseDetails
    rw [if_neg hm, hc]
    exact ⟨rfl, rfl⟩

/-- C3, witness: with a stale row (no tee data) and a failing upstream the
    newer handler still answers 200 with the stored row. -/
theorem api_failure_swallowed_with_prior_row_witness :
    serveGetCourseDetails sampleEnv reqPathId 0 "2025-01-01T00:00:00.000Z"
      (fun _ => some noTeesRow) (ApiBranch.failure "golfapi down") =
    { status := 200, course := some noTeesRow,
      has_complete_data := some false, data_refreshed := some true } := by
  have h := api_failure_swallowed_with_prior_row.1 sampleEnv reqPathId 0
    "2025-01-01T00:00:00.000Z" (fun _ => some noTeesRow) noTeesRow "golfapi down"
    (by decide) (by decide) (by decide) (by decide) rfl (by decide)
  exact h

/-- C7, counterexample: on a failed edge response with existing recent
    rounds, getRecentCourses issues two fallback database queries (rounds,
    then courses), so the claim that every operation issues exactly one
    fallback query is false. -/
theorem recent_fallback_issues_two_queries :
    ((getRecentCourses (some "user-1") 5
        (FetchOutcome.resp false (Except.error "http 500"))
        { data := some [c10Round], error := none }
        { data := some [c10Course], error := none }).snd.count Effect.dbQuery = 2) ∧
    ¬((getRecentCourses (some "user-1") 5
        (FetchOutcome.resp false (Except.error "http 500"))
        { data := some [c10Round], error := none }
        { data := some [c10Course], error := none }).snd.count Effect.dbQuery = 1) := by
  decide

/-- C7, amended: each courseService operation calls the edge function
    exactly once with no retry; a failed edge response triggers a single
    direct-database fallback pass, issuing one query for searchCourses,
    getAllCourses and getCourseById and one or two queries (rounds, then
    courses when rounds exist) for getRecentCourses; and any thrown
    exception is caught so the operation returns an empty array (null for
    getCourseById). -/
theorem service_fallback_behaviour :
    (∀ (s : String) (edge : FetchOutcome CoursesPayload)
       (db : DbResult (List CourseLite)) (body : Except String CoursesPayload),
      3 ≤ (jsTrim s).length → edge = FetchOutcome.resp false body →
      (searchCourses (some s) edge db).snd = [Effect.edgeCall, Effect.dbQuery]) ∧
    (∀ (edge : FetchOutcome CoursesPayload) (db : DbResult (List CourseLite))
       (body : Except String CoursesPayload),
      edge = FetchOutcome.resp false body →
      (getAllCourses edge db).snd = [Effect.edgeCall, Effect.dbQuery]) ∧
    (∀ (edge : FetchOutcome CourseRow) (db : DbResult CourseRow)
       (body : Except String CourseRow),
      edge = FetchOutcome.resp false body →
      (getCourseById edge db).snd = [Effect.edgeCall, Effect.dbQuery]) ∧
    (∀ (u : String) (lim : Nat) (edge : FetchOutcome (Option (List CourseOut)))
       (rq : DbResult (List RoundLite)) (cq : DbResult (List CourseLite))
       (body : Except String (Option (List CourseOut))),
      u ≠ "" → edge = FetchOutcome.resp false body →
      ((getRecentCourses (some u) lim edge rq cq).snd =
          [Effect.edgeCall, Effect.dbQuery] ∨
       (getRecentCourses (some u) lim edge rq cq).snd =
          [Effect.edgeCall, Effect.dbQuery, Effect.dbQuery]) ∧
      (rq.error = none → ¬(rq.data.getD []).isEmpty →
        (getRecentCourses (some u) lim edge rq cq).fst =
          getRecentCoursesFallback (rq.data.getD []) (cq.data.getD []) lim ∨
        (∃ e, cq.error = some e ∧ (getRecentCourses (some u) lim edge rq cq).fst = []))) ∧
    (∀ (term : Option String) (edge : FetchOutcome CoursesPayload)
       (db : DbResult (List CourseLite)),
      (searchCourses term edge db).snd.count Effect.edgeCall ≤ 1) ∧
    (∀ (edge : FetchOutcome CoursesPayload) (db : DbResult (List CourseLite)),
      (getAllCourses edge db).snd.count Effect.edgeCall ≤ 1) ∧
    (∀ (edge : FetchOutcome CourseRow) (db : DbResult CourseRow),
      (getCourseById edge db).snd.count Effect.edgeCall ≤ 1) ∧
    (∀ (u : Option String) (lim : Nat) (edge : FetchOutcome (Option (List CourseOut)))
       (rq : DbResult (List RoundLite)) (cq : DbResult (List CourseLite)),
      (getRecentCourses u lim edge rq cq).snd.count Effect.edgeCall ≤ 1) ∧
    (∀ (term : Option String) (m : String) (db : DbResult (List CourseLite)),
      (searchCourses term (FetchOutcome.exn m) db).fst = []) ∧
    (∀ (term : Option String) (body : Except String CoursesPayload)
       (db : DbResult (List CourseLite)) (e : String),
      db.error = some e →
      (searchCourses term (FetchOutcome.resp false body) db).fst = []) ∧
    (∀ (term : Option String) (m : String) (db : DbResult (List CourseLite)),
      (searchCourses term (FetchOutcome.resp true (Except.error m)) db).fst = []) ∧
    (∀ (m : String) (db : DbResult (List CourseLite)),
      (getAllCourses (FetchOutcome.exn m) db).fst = []) ∧
    (∀ (body : Except String CoursesPayload) (db : DbResult (List CourseLite))
       (e : String),
      db.error = some e → (getAllCourses (FetchOutcome.resp false body) db).fst = []) ∧
    (∀ (m : String) (db : DbResult (List CourseLite)),
      (getAllCourses (FetchOutcome.resp true (Except.error m)) db).fst = []) ∧
    (∀ (m : String) (db : DbResult CourseRow),
      (getCourseById (FetchOutcome.exn m) db).fst = none) ∧
    (∀ (body : Except String CourseRow) (db : DbResult CourseRow) (e : String),
      db.error = some e → (getCourseById (FetchOutcome.resp false body) db).fst = none) ∧
    (∀ (m : String) (db : DbResult CourseRow),
      (getCourseById (FetchOutcome.resp true (Except.error m)) db).fst = none) ∧
    (∀ (u : Option String) (lim : Nat) (m : String) (rq : DbResult (List RoundLite))
       (cq : DbResult (List CourseLite)),
      (getRecentCourses u lim (FetchOutcome.exn m) rq cq).fst = []) ∧
    (∀ (u : Option String) (lim : Nat) (body : Except String (Option (List CourseOut)))
       (rq : DbResult (List RoundLite)) (cq : DbResult (List CourseLite)) (e : String),
      rq.error = some e →
      (getRecentCourses u lim (FetchOutcome.resp false body) rq cq).fst = []) ∧
    (∀ (u : Option String) (lim : Nat) (body : Except String (Option (List CourseOut)))
       (rq : DbResult (List RoundLite)) (cq : DbResult (List CourseLite)) (e : String),
      cq.error = some e →
      (getRecentCourses u lim (FetchOutcome.resp false body) rq cq).fst = []) ∧
    (∀ (u : Option String) (lim : Nat) (m : String) (rq : DbResult (List RoundLite))
       (cq : DbResult (List CourseLite)),
      (getRecentCourses u lim (FetchOutcome.resp true (Except.error m)) rq cq).fst = []) := by
  refine ⟨?_, ?_, ?_, ?_, ?_, ?_, ?_, ?_, ?_, ?_, ?_, ?_, ?_, ?_, ?_, ?_, ?_, ?_, ?_, ?_, ?_⟩
  · intro s edge db body hlen hedge
    subst hedge
    have hterm : ¬ (jsTrim s).length < 3 := by omega
    rcases db with ⟨data, error⟩
    rcases error with _ | e <;> simp [searchCourses, hterm]
  · intro edge db body hedge
    subst hedge
    rcases db with ⟨data, error⟩
    rcases error with _ | e <;> simp [getAllCourses]
  · intro edge db body hedge
    subst hedge
    rcases db with ⟨data, error⟩
    rcases error with _ | e <;> simp [getCourseById]
  · intro u lim edge rq cq body hu hedge
    subst hedge
    rcases rq with ⟨rdata, rerror⟩
    constructor
    · rcases rerror with _ | e
      · by_cases hempty : (rdata.getD []).isEmpty
        · simp [getRecentCourses, hu, hempty]
        · rcases cq with ⟨cdata, cerror⟩
          rcases cerror with _ | e <;> simp [getRecentCourses, hu, hempty]
      · simp [getRecentCourses, hu]
    · intro herr hempty
      simp only at herr
      subst herr
      rcases cq with ⟨cdata, cerror⟩
      rcases cerror with _ | e
      · left
        simp [getRecentCourses, getRecentCoursesFallback, hu, hempty]
      · right
        exact ⟨e, rfl, by simp [getRecentCourses, hu, hempty]⟩
  · intro term edge db
    rcases term with _ | s
    · simp [searchCourses]
    · by_cases hterm : (jsTrim s).length < 3
      · simp [searchCourses, hterm]
      · rcases edge with m | ⟨ok, body⟩
        · simp [searchCourses, hterm]
        · rcases ok with _ | _ <;> rcases body with m | payload <;>
            rcases db with ⟨data, error⟩ <;> rcases error with _ | e <;>
            simp [searchCourses, hterm, List.count_cons]
  · intro edge db
    rcases edge with m | ⟨ok, body⟩
    · simp [getAllCourses]
    · rcases ok with _ | _ <;> rcases body with m | payload <;>
        rcases db with ⟨data, error⟩ <;> rcases error with _ | e <;>
        simp [getAllCourses, List.count_cons]
  · intro edge db
    rcases edge with m | ⟨ok, body⟩
    · simp [getCourseById]
    · rcases ok with _ | _ <;> rcases body with m | payload <;>
        rcases db with ⟨data, error⟩ <;> rcases error with _ | e <;>
        simp [getCourseById, List.count_cons]
  · intro u lim edge rq cq
    rcases u with _ | s
    · simp [getRecentCourses]
    · by_cases hs : s = ""
      · simp [getRecentCourses, hs]
      · rcases edge with m | ⟨ok, body⟩
        · simp [getRecentCourses, hs]
        · rcases ok with _ | _ <;> rcases body with m | payload
          all_goals rcases rq with ⟨rdata, rerror⟩
          all_goals rcases rerror with _ | e
          all_goals rcases cq with ⟨cdata, cerror⟩
          all_goals rcases cerror with _ | e2
          all_goals simp [getRecentCourses, hs, List.count_cons]
          all_goals split <;> simp [List.count_cons]
  · intro term m db
    rcases term with _ | s
    · rfl
    · by_cases hterm : (jsTrim s).length < 3 <;> simp [searchCourses, hterm]
  · intro term body db e herr
    rcases term with _ | s
    · rfl
    · by_cases hterm : (jsTrim s).length < 3 <;> simp [searchCourses, hterm, herr]
  · intro term m db
    rcases term with _ | s
    · rfl
    · by_cases hterm : (jsTrim s).length < 3 <;> simp [searchCourses, hterm]
  · intro m db
    rfl
  · intro body db e herr
    simp [getAllCourses, herr]
  · intro m db
    rfl
  · intro m db
    rfl
  · intro body db e herr
    simp [getCourseById, herr]
  · intro m db
    rfl
  · intro u lim m rq cq
    rcases u with _ | s
    · rfl
    · by_cases hs : s = "" <;> simp [getRecentCourses, hs]
  · intro u lim body rq cq e herr
    rcases u with _ | s
    · rfl
    · by_cases hs : s = "" <;> simp [getRecentCourses, hs, herr]
  · intro u lim body rq cq e herr
    rcases u with _ | s
    · rfl
    · by_cases hs : s = ""
      · simp [getRecentCourses, hs]
      · rcases rq with ⟨rdata, rerror⟩
        rcases rerror with _ | e2
        · by_cases hempty : (rdata.getD []).isEmpty <;>
            simp [getRecentCourses, hs, hempty, herr]
        · simp [getRecentCourses, hs]
  · intro u lim m rq cq
    rcases u with _ | s
    · rfl
    · by_cases hs : s = "" <;> simp [getRecentCourses, hs]

/-- C7, witness for the amended theorem: a failed edge search falls back to
    exactly one database query after the one edge call. -/
theorem service_fallback_behaviour_witness :
    (searchCourses (some "abc") (FetchOutcome.resp false (Except.error "http 500"))
       { data := some [], error := none }).snd = [Effect.edgeCall, Effect.dbQuery] :=
  service_fallback_behaviour.1 "abc" _ { data := some [], error := none }
    (Except.error "http 500") (by decide) rfl

/-- findIndex misses exactly when no element satisfies the predicate. -/
theorem jsFindIndex_eq_none_iff {α : Type} (p : α → Bool) :
    ∀ l : List α, jsFindIndex p l = none ↔ ∀ x ∈ l, p x = false := by
  intro l
  induction l with
  | nil => simp [jsFindIndex]
  | cons x xs ih =>
    cases hp : p x <;>
      simp [jsFindIndex, hp, Option.map_eq_none', ih]

/-- A found index is within bounds. -/
theorem jsFindIndex_lt_length {α : Type} (p : α → Bool) :
    ∀ (l : List α) (i : Nat), jsFindIndex p l = some i → i < l.length := by
  intro l
  induction l with
  | nil => intro i h; simp [jsFindIndex] at h
  | cons x xs ih =>
    intro i h
    cases hp : p x <;> rw [jsFindIndex, hp] at h <;> simp at h
    · rcases h with ⟨j, hj, hij⟩
      have := ih j hj
      simp
      omega
    · simp [← h]

/-- Erasing at the found index is erasing the first match. -/
theorem jsFindIndex_eraseIdx {α : Type} (p : α → Bool) :
    ∀ (l : List α) (i : Nat), jsFindIndex p l = some i →
      l.eraseIdx i = l.eraseP p := by
  intro l
  induction l with
  | nil => intro i h; simp [jsFindIndex] at h
  | cons x xs ih =>
    intro i h
    cases hp : p x <;> rw [jsFindIndex, hp] at h <;> simp at h
    · rcases h with ⟨j, hj, hij⟩
      rw [← hij]
      show x :: xs.eraseIdx j = (x :: xs).eraseP p
      rw [List.eraseP_cons_of_neg (by simp [hp]), ih j hj]
    · rw [← h]
      show xs = (x :: xs).eraseP p
      rw [List.eraseP_cons_of_pos hp]

/-- Erasing the appended last element gives back the list. -/
theorem eraseIdx_append_sing {α : Type} :
    ∀ (ys : List α) (x : α), (ys ++ [x]).eraseIdx ys.length = ys := by
  intro ys x
  induction ys with
  | nil => rfl
  | cons y ys ih =>
    show y :: ((ys ++ [x]).eraseIdx ys.length) = y :: ys
    rw [ih]

/-- Erasing inside the left part of an append. -/
theorem eraseIdx_append_left {α : Type} :
    ∀ (ys zs : List α) (i : Nat), i < ys.length →
      (ys ++ zs).eraseIdx i = ys.eraseIdx i ++ zs := by
  intro ys
  induction ys with
  | nil => intro zs i h; simp at h
  | cons y ys ih =>
    intro zs i h
    cases i with
    | zero => rfl
    | succ j =>
      show y :: ((ys ++ zs).eraseIdx j) = y :: (ys.eraseIdx j ++ zs)
      rw [ih zs j (Nat.lt_of_succ_lt_succ h)]

/-- Erasing an index commutes with reversal through the mirrored index. -/
theorem eraseIdx_reverse {α : Type} :
    ∀ (l : List α) (i : Nat), i < l.length →
      (l.eraseIdx i).reverse = l.reverse.eraseIdx (l.length - 1 - i) := by
  intro l
  induction l with
  | nil => intro i h; simp at h
  | cons x xs ih =>
    intro i h
    cases i with
    | zero =>
      show xs.reverse = (x :: xs).reverse.eraseIdx ((x :: xs).length - 1 - 0)
      rw [List.reverse_cons]
      have hidx : (x :: xs).length - 1 - 0 = xs.reverse.length := by simp
      rw [hidx, eraseIdx_append_sing]
    | succ j =>
      have hj : j < xs.length := Nat.lt_of_succ_lt_succ h
      show (x :: xs.eraseIdx j).reverse =
        (x :: xs).reverse.eraseIdx ((x :: xs).length - 1 - (j + 1))
      rw [List.reverse_cons, List.reverse_cons]
      have hidx : (x :: xs).length - 1 - (j + 1) = xs.length - 1 - j := by
        simp
        omega
      rw [hidx, eraseIdx_append_left _ _ _ (by rw [List.length_reverse]; omega),
        ih j hj]

/-- Erasing the first match removes exactly one matching element. -/
theorem filter_length_eraseP {α : Type} (p : α → Bool) :
    ∀ l : List α, (∃ x ∈ l, p x = true) →
      ((l.eraseP p).filter p).length + 1 = (l.filter p).length := by
  intro l
  induction l with
  | nil => intro h; simp at h
  | cons x xs ih =>
    intro h
    cases hp : p x
    · rw [List.eraseP_cons_of_neg (by simp [hp]),
        List.filter_cons_of_neg (by simp [hp]), List.filter_cons_of_neg (by simp [hp])]
      apply ih
      rcases h with ⟨y, hy, hpy⟩
      rcases List.mem_cons.mp hy with rfl | hy2
      · rw [hp] at hpy
        exact absurd hpy (by simp)
      · exact ⟨y, hy2, hpy⟩
    · rw [List.eraseP_cons_of_pos hp, List.filter_cons_of_pos hp]
      simp

/-- Erasing the first p-match leaves the q-filtered list unchanged when no
    element satisfies both predicates. -/
theorem filter_eraseP_disjoint {α : Type} (p q : α → Bool)
    (hpq : ∀ x, p x = true → q x = false) :
    ∀ l : List α, (l.eraseP p).filter q = l.filter q := by
  intro l
  induction l with
  | nil => rfl
  | cons x xs ih =>
    cases hp : p x
    · rw [List.eraseP_cons_of_neg (by simp [hp])]
      cases hq : q x
      · rw [List.filter_cons_of_neg (by simp [hq]),
          List.filter_cons_of_neg (by simp [hq]), ih]
      · rw [List.filter_cons_of_pos hq, List.filter_cons_of_pos hq, ih]
    · rw [List.eraseP_cons_of_pos hp,
        List.filter_cons_of_neg (by simp [hpq x hp])]

/-- Boolean match unfolded to the component equations. -/
theorem shotMatches_iff (t : ShotType) (o : ShotOutcome) (s : Shot) :
    shotMatches t o s = true ↔ s.shotType = t ∧ s.result = o := by
  simp [shotMatches]

/-- A shot of a different type or outcome never matches. -/
theorem shotMatches_ne_false (t : ShotType) (o : ShotOutcome) (t2 : ShotType)
    (o2 : ShotOutcome) (heq : ¬(t2 = t ∧ o2 = o)) (s : Shot)
    (hs : shotMatches t o s = true) : shotMatches t2 o2 s = false := by
  rcases (shotMatches_iff t o s).mp hs with ⟨h1, h2⟩
  by_contra hcon
  rw [Bool.not_eq_false] at hcon
  rcases (shotMatches_iff t2 o2 s).mp hcon with ⟨h3, h4⟩
  exact heq ⟨h3.symm.trans h1, h4.symm.trans h2⟩

/-- Removing the most recent match drops exactly one from the matching
    count. -/
theorem countMatching_removeLast_same (t : ShotType) (o : ShotOutcome)
    (shots : List Shot) (hpos : 0 < countMatching t o shots) :
    countMatching t o (removeLastMatching t o shots) + 1 = countMatching t o shots := by
  unfold countMatching removeLastMatching
  rw [List.filter_reverse, List.length_reverse]
  have hex : ∃ x ∈ shots.reverse, shotMatches t o x = true := by
    unfold countMatching at hpos
    rcases List.exists_mem_of_length_pos hpos with ⟨x, hx⟩
    rcases List.mem_filter.mp hx with ⟨hmem, hpx⟩
    exact ⟨x, List.mem_reverse.mpr hmem, hpx⟩
  rw [filter_length_eraseP _ _ hex, List.filter_reverse, List.length_reverse]

/-- Removing the most recent match of one cell leaves every other cell's
    count unchanged. -/
theorem countMatching_removeLast_other (t : ShotType) (o : ShotOutcome)
    (t2 : ShotType) (o2 : ShotOutcome) (heq : ¬(t2 = t ∧ o2 = o))
    (shots : List Shot) :
    countMatching t2 o2 (removeLastMatching t o shots) = countMatching t2 o2 shots := by
  unfold countMatching removeLastMatching
  rw [List.filter_reverse, List.length_reverse,
    filter_eraseP_disjoint _ _ (shotMatches_ne_false t o t2 o2 heq),
    List.filter_reverse, List.length_reverse]

/-- The initial hole satisfies the counts invariant. -/
theorem countsOK_initial : CountsOK initialHoleState := fun _ _ => rfl

/-- addShot preserves the counts invariant. -/
theorem countsOK_add (h : HoleState) (t : ShotType) (o : ShotOutcome) (ts : String)
    (hc : CountsOK h) : CountsOK (addShotHole h t o ts) := by
  intro t2 o2
  by_cases heq : t2 = t ∧ o2 = o
  · obtain ⟨rfl, rfl⟩ := heq
    simp [addShotHole, countMatching, List.filter_append, shotMatches, hc t2 o2]
  · have hf : shotMatches t2 o2 { shotType := t, result := o, timestamp := ts } = false := by
      by_contra hcon
      rw [Bool.not_eq_false] at hcon
      rcases (shotMatches_iff t2 o2 _).mp hcon with ⟨h1, h2⟩
      exact heq ⟨h1.symm, h2.symm⟩
    simp [addShotHole, countMatching, List.filter_append, heq, hf, hc t2 o2]

/-- removeShot with a zero count cell is the identity. -/
theorem removeShotHole_zero (h : HoleState) (t : ShotType) (o : ShotOutcome)
    (hz : h.shotCounts t o = 0) : removeShotHole h t o = h := by
  unfold removeShotHole
  rw [if_pos (by omega)]

/-- removeShot with a positive count cell (under the invariant) removes
    exactly the most recently added matching shot and decrements the cell. -/
theorem removeShotHole_pos (h : HoleState) (t : ShotType) (o : ShotOutcome)
    (hc : CountsOK h) (hpos : 0 < h.shotCounts t o) :
    removeShotHole h t o =
      { h with shots := removeLastMatching t o h.shots,
               shotCounts := fun t2 o2 =>
                 if t2 = t ∧ o2 = o then h.shotCounts t2 o2 - 1
                 else h.shotCounts t2 o2 } := by
  have hcnt : 0 < countMatching t o h.shots := by
    rw [← hc t o]
    exact hpos
  have hex : ∃ x ∈ h.shots.reverse, shotMatches t o x = true := by
    unfold countMatching at hcnt
    rcases List.exists_mem_of_length_pos hcnt with ⟨x, hx⟩
    rcases List.mem_filter.mp hx with ⟨hmem, hpx⟩
    exact ⟨x, List.mem_reverse.mpr hmem, hpx⟩
  obtain ⟨ri, hri⟩ : ∃ ri, jsFindIndex (shotMatches t o) h.shots.reverse = some ri := by
    cases hfi : jsFindIndex (shotMatches t o) h.shots.reverse with
    | none =>
      rcases hex with ⟨x, hx, hpx⟩
      have := (jsFindIndex_eq_none_iff _ _).mp hfi x hx
      rw [this] at hpx
      exact absurd hpx (by simp)
    | some ri => exact ⟨ri, rfl⟩
  have hlt : ri < h.shots.reverse.length := jsFindIndex_lt_length _ _ _ hri
  unfold removeShotHole
  rw [if_neg (by omega), hri]
  have h2 := eraseIdx_reverse h.shots.reverse ri hlt
  rw [List.reverse_reverse, List.length_reverse] at h2
  dsimp only
  congr 1
  rw [← List.eraseIdx_eq_take_drop_succ, ← h2]
  unfold removeLastMatching
  rw [jsFindIndex_eraseIdx _ _ _ hri]

/-- removeShot preserves the counts invariant. -/
theorem countsOK_remove (h : HoleState) (t : ShotType) (o : ShotOutcome)
    (hc : CountsOK h) : CountsOK (removeShotHole h t o) := by
  rcases Nat.eq_zero_or_pos (h.shotCounts t o) with hz | hpos
  · rw [removeShotHole_zero h t o hz]
    exact hc
  · rw [removeShotHole_pos h t o hc hpos]
    intro t2 o2
    by_cases heq : t2 = t ∧ o2 = o
    · obtain ⟨rfl, rfl⟩ := heq
      show (if t2 = t2 ∧ o2 = o2 then h.shotCounts t2 o2 - 1 else h.shotCounts t2 o2)
        = countMatching t2 o2 (removeLastMatching t2 o2 h.shots)
      rw [if_pos ⟨rfl, rfl⟩]
      have := countMatching_removeLast_same t2 o2 h.shots (by rw [← hc t2 o2]; omega)
      rw [← hc t2 o2] at this
      omega
    · show (if t2 = t ∧ o2 = o then h.shotCounts t2 o2 - 1 else h.shotCounts t2 o2)
        = countMatching t2 o2 (removeLastMatching t o h.shots)
      rw [if_neg heq, countMatching_removeLast_other t o t2 o2 heq]
      exact hc t2 o2

/-- Every reachable tracker state satisfies the counts invariant. -/
theorem trackerInv_run : ∀ ops : List TrackerOp, TrackerInv (runTrackerOps ops) := by
  have hstep : ∀ (st : TrackerState) (op : TrackerOp),
      TrackerInv st → TrackerInv (applyTrackerOp st op) := by
    intro st op hst
    cases op with
    | add hole t o ts =>
      intro h2
      by_cases hh : h2 = hole
      · simp only [applyTrackerOp, if_pos hh]
        exact countsOK_add _ _ _ _ (hst hole)
      · simp only [applyTrackerOp, if_neg hh]
        exact hst h2
    | remove hole t o =>
      intro h2
      by_cases hh : h2 = hole
      · simp only [applyTrackerOp, if_pos hh]
        exact countsOK_remove _ _ _ (hst hole)
      · simp only [applyTrackerOp, if_neg hh]
        exact hst h2
  have hfold : ∀ (l : List TrackerOp) (st : TrackerState),
      TrackerInv st → TrackerInv (l.foldl applyTrackerOp st) := by
    intro l
    induction l with
    | nil => intro st h; exact h
    | cons op l ih => intro st h; exact ih _ (hstep st op h)
  intro ops
  exact hfold ops initialTrackerState (fun _ => countsOK_initial)

/-- C9: from the initial tracker state, after any sequence of addShot and
    removeShot operations every shotCounts cell equals the number of
    matching entries of that hole's shots array; removeShot with a zero
    cell leaves the state unchanged, and with a positive cell it removes
    exactly the most recently added matching shot, touching no other
    hole. -/
theorem tracker_counts_invariant :
    ∀ (ops : List TrackerOp) (hole : Nat) (t : ShotType) (o : ShotOutcome),
      ((runTrackerOps ops hole).shotCounts t o =
        countMatching t o (runTrackerOps ops hole).shots) ∧
      ((runTrackerOps ops hole).shotCounts t o = 0 →
        ∀ h2, applyTrackerOp (runTrackerOps ops) (TrackerOp.remove hole t o) h2 =
          runTrackerOps ops h2) ∧
      (0 < (runTrackerOps ops hole).shotCounts t o →
        (applyTrackerOp (runTrackerOps ops) (TrackerOp.remove hole t o) hole).shots =
          removeLastMatching t o (runTrackerOps ops hole).shots ∧
        ∀ h2, h2 ≠ hole →
          applyTrackerOp (runTrackerOps ops) (TrackerOp.remove hole t o) h2 =
            runTrackerOps ops h2) := by
  intro ops hole t o
  have hco : CountsOK (runTrackerOps ops hole) := trackerInv_run ops hole
  refine ⟨hco t o, fun hz h2 => ?_, fun hpos => ⟨?_, fun h2 hne => ?_⟩⟩
  · by_cases hh : h2 = hole
    · simp only [applyTrackerOp, if_pos hh]
      rw [removeShotHole_zero _ _ _ hz, hh]
    · simp only [applyTrackerOp, if_neg hh]
  · have happ : applyTrackerOp (runTrackerOps ops) (TrackerOp.remove hole t o) hole =
        removeShotHole (runTrackerOps ops hole) t o := by
      simp [applyTrackerOp]
    rw [happ, removeShotHole_pos _ _ _ hco hpos]
  · simp only [applyTrackerOp, if_neg hne]

/-- C9, witness: after three adds, removing a tee shot on target removes
    the second tee shot, the most recently added matching one. -/
theorem tracker_counts_invariant_witness :
    0 < (runTrackerOps c9Ops 3).shotCounts ShotType.teeShot ShotOutcome.onTarget ∧
    (applyTrackerOp (runTrackerOps c9Ops)
      (TrackerOp.remove 3 ShotType.teeShot ShotOutcome.onTarget) 3).shots =
      removeLastMatching ShotType.teeShot ShotOutcome.onTarget
        (runTrackerOps c9Ops 3).shots :=
  ⟨by decide,
   ((tracker_counts_invariant c9Ops 3 ShotType.teeShot ShotOutcome.onTarget).2.2
     (by decide)).1⟩

/-- firstByKey keeps a subsequence of its input. -/
theorem firstByKey_sublist {α : Type} (key : α → String) :
    ∀ (rs : List α) (seen : List String), List.Sublist (firstByKey key rs seen) rs := by
  intro rs
  induction rs with
  | nil => intro seen; exact List.Sublist.refl _
  | cons r rest ih =>
    intro seen
    by_cases h : key r ∈ seen
    · rw [firstByKey, if_pos h]
      exact (ih seen).cons r
    · rw [firstByKey, if_neg h]
      exact (ih (seen ++ [key r])).cons₂ r

/-- Keys emitted by firstByKey were not previously seen. -/
theorem firstByKey_key_not_mem {α : Type} (key : α → String) :
    ∀ (rs : List α) (seen : List String) (x : α),
      x ∈ firstByKey key rs seen → key x ∉ seen := by
  intro rs
  induction rs with
  | nil => intro seen x hx; simp [firstByKey] at hx
  | cons r rest ih =>
    intro seen x hx
    by_cases h : key r ∈ seen
    · rw [firstByKey, if_pos h] at hx
      exact ih seen x hx
    · rw [firstByKey, if_neg h] at hx
      rcases List.mem_cons.mp hx with rfl | hx2
      · exact h
      · intro hmem
        exact ih (seen ++ [key r]) x hx2 (List.mem_append_left _ hmem)

/-- The emitted keys are distinct. -/
theorem firstByKey_nodup_keys {α : Type} (key : α → String) :
    ∀ (rs : List α) (seen : List String),
      ((firstByKey key rs seen).map key).Nodup := by
  intro rs
  induction rs with
  | nil => intro seen; simp [firstByKey]
  | cons r rest ih =>
    intro seen
    by_cases h : key r ∈ seen
    · rw [firstByKey, if_pos h]
      exact ih seen
    · rw [firstByKey, if_neg h]
      rw [List.map_cons, List.nodup_cons]
      refine ⟨?_, ih (seen ++ [key r])⟩
      intro hmem
      rcases List.mem_map.mp hmem with ⟨x, hx, hkx⟩
      have := firstByKey_key_not_mem key rest (seen ++ [key r]) x hx
      exact this (by rw [hkx]; exact List.mem_append_right _ (List.mem_singleton.mpr rfl))

/-- With the input sorted most recent first, each emitted entry carries the
    most recent time of its key. -/
theorem firstByKey_max {α : Type} (key : α → String) (time : α → Int) :
    ∀ (rs : List α) (seen : List String),
      rs.Pairwise (fun a b => time b ≤ time a) →
      ∀ f ∈ firstByKey key rs seen, ∀ r ∈ rs, key r = key f → time r ≤ time f := by
  intro rs
  induction rs with
  | nil => intro seen hs f hf; simp [firstByKey] at hf
  | cons r0 rest ih =>
    intro seen hs f hf r hr hkey
    rcases List.pairwise_cons.mp hs with ⟨hr0, hrest⟩
    by_cases h : key r0 ∈ seen
    · rw [firstByKey, if_pos h] at hf
      rcases List.mem_cons.mp hr with rfl | hr2
      · exact absurd (hkey ▸ h) (firstByKey_key_not_mem key rest seen f hf)
      · exact ih seen hrest f hf r hr2 hkey
    · rw [firstByKey, if_neg h] at hf
      rcases List.mem_cons.mp hf with rfl | hf2
      · rcases List.mem_cons.mp hr with rfl | hr2
        · exact le_refl _
        · exact hr0 r hr2
      · rcases List.mem_cons.mp hr with rfl | hr2
        · have := firstByKey_key_not_mem key rest (seen ++ [key r]) f hf2
          exact absurd (hkey ▸ List.mem_append_right _ (List.mem_singleton.mpr rfl)) this
        · exact ih (seen ++ [key r0]) hrest f hf2 r hr2 hkey

/-- The most recent time of a key is unique. -/
theorem isLatestIn_unique {α : Type} (key : α → String) (time : α → Int)
    (rounds : List α) (cid : String) (t1 t2 : Int)
    (h1 : IsLatestIn key time rounds cid t1) (h2 : IsLatestIn key time rounds cid t2) :
    t1 = t2 := by
  rcases h1 with ⟨⟨r1, hr1, hk1, ht1⟩, hb1⟩
  rcases h2 with ⟨⟨r2, hr2, hk2, ht2⟩, hb2⟩
  have ha := hb2 r1 hr1 hk1
  have hb := hb1 r2 hr2 hk2
  omega

/-- Entries emitted by firstByKey from the full sorted list are ordered by
    the most recent time of their keys. -/
theorem firstByKey_pairwise_latest {α : Type} (key : α → String) (time : α → Int)
    (rs : List α) (hs : rs.Pairwise (fun a b => time b ≤ time a)) :
    (firstByKey key rs []).Pairwise (fun f1 f2 =>
      ∃ t1, IsLatestIn key time rs (key f1) t1 ∧
        ∀ t2, IsLatestIn key time rs (key f2) t2 → t2 ≤ t1) := by
  have hpw : (firstByKey key rs []).Pairwise (fun a b => time b ≤ time a) :=
    List.Pairwise.sublist (firstByKey_sublist key rs []) hs
  refine hpw.imp_of_mem ?_
  intro f1 f2 h1 h2 hle
  have hm1 : f1 ∈ rs := (firstByKey_sublist key rs []).mem h1
  have hm2 : f2 ∈ rs := (firstByKey_sublist key rs []).mem h2

  have hlat1 : IsLatestIn key time rs (key f1) (time f1) :=
    ⟨⟨f1, hm1, rfl, rfl⟩, fun r hr hk => firstByKey_max key time rs [] hs f1 h1 r hr hk⟩
  have hlat2 : IsLatestIn key time rs (key f2) (time f2) :=
    ⟨⟨f2, hm2, rfl, rfl⟩, fun r hr hk => firstByKey_max key time rs [] hs f2 h2 r hr hk⟩
  refine ⟨time f1, hlat1, fun t2 ht2 => ?_⟩
  rw [isLatestIn_unique key time rs (key f2) t2 (time f2) ht2 hlat2]
  exact hle

/-- Pairwise transfer through filterMap when the relation on images only
    needs the relation on sources. -/
theorem pairwise_filterMap_of {α β : Type} (f : α → Option β) {T : α → α → Prop}
    {S : β → β → Prop} :
    ∀ l : List α, l.Pairwise T →
      (∀ a, a ∈ l → ∀ b, b ∈ l → T a b →
        ∀ x y, f a = some x → f b = some y → S x y) →
      (l.filterMap f).Pairwise S := by
  intro l
  induction l with
  | nil => intro _ _; simp
  | cons a l ih =>
    intro hpw htr
    rcases List.pairwise_cons.mp hpw with ⟨ha, hl⟩
    cases hfa : f a with
    | none =>
      rw [List.filterMap_cons_none hfa]
      exact ih hl (fun a2 ha2 b hb ht x y hx hy =>
        htr a2 (List.mem_cons_of_mem _ ha2) b (List.mem_cons_of_mem _ hb) ht x y hx hy)
    | some x =>
      rw [List.filterMap_cons_some hfa]
      refine List.pairwise_cons.mpr ⟨?_, ih hl (fun a2 ha2 b hb ht x2 y hx hy =>
        htr a2 (List.mem_cons_of_mem _ ha2) b (List.mem_cons_of_mem _ hb) ht x2 y hx hy)⟩
      intro y hy
      rcases List.mem_filterMap.mp hy with ⟨b, hb, hfb⟩
      exact htr a (List.mem_cons_self _ _) b (List.mem_cons_of_mem _ hb)
        (ha b hb) x y hfa hfb

/-- Mapping the id over a filterMap whose outputs carry the source key. -/
theorem map_filterMap_eq_filter {α β : Type} (f : α → Option β) (g : β → String)
    (h : α → String) :
    ∀ l : List α, (∀ x ∈ l, ∀ c, f x = some c → g c = h x) →
      (l.filterMap f).map g = (l.filter (fun x => (f x).isSome)).map h := by
  intro l
  induction l with
  | nil => intro _; rfl
  | cons a l ih =>
    intro hl
    cases hfa : f a with
    | none =>
      rw [List.filterMap_cons_none hfa, List.filter_cons_of_neg (by simp [hfa])]
      exact ih (fun x hx => hl x (List.mem_cons_of_mem _ hx))
    | some c =>
      rw [List.filterMap_cons_some hfa, List.filter_cons_of_pos (by simp [hfa]),
        List.map_cons, List.map_cons,
        hl a (List.mem_cons_self _ _) c hfa,
        ih (fun x hx => hl x (List.mem_cons_of_mem _ hx))]

/-- Once the id list has reached the limit the fallback loop adds nothing. -/
theorem csUniqueIdsGo_stuck :
    ∀ (rounds : List RoundLite) (limit : Nat) (acc : List String),
      limit ≤ acc.length → csUniqueIdsGo rounds limit acc = acc := by
  intro rounds
  induction rounds with
  | nil => intro limit acc h; rfl
  | cons r rest ih =>
    intro limit acc h
    rw [csUniqueIdsGo, if_neg (fun hc => absurd hc.2 (by omega))]
    exact ih limit acc h

/-- The fallback unique-id loop computes the firstByKey keys truncated to
    the limit. -/
theorem csUniqueIdsGo_eq :
    ∀ (rounds : List RoundLite) (acc : List String) (limit : Nat),
      acc.length ≤ limit →
      csUniqueIdsGo rounds limit acc =
        (acc ++ (firstByKey RoundLite.course_id rounds acc).map
          RoundLite.course_id).take limit := by
  intro rounds
  induction rounds with
  | nil =>
    intro acc limit h
    show acc = (acc ++ ([] : List RoundLite).map RoundLite.course_id).take limit
    rw [List.map_nil, List.append_nil, List.take_of_length_le h]
  | cons r rest ih =>
    intro acc limit h
    by_cases hmem : r.course_id ∈ acc
    · rw [csUniqueIdsGo, if_neg (fun hc => hc.1 hmem), firstByKey, if_pos hmem]
      exact ih acc limit h
    · by_cases hlt : acc.length < limit
      · rw [csUniqueIdsGo, if_pos ⟨hmem, hlt⟩, firstByKey, if_neg hmem,
          ih (acc ++ [r.course_id]) limit (by simp; omega), List.map_cons,
          List.append_assoc, List.singleton_append]
      · have hle : limit ≤ acc.length := by omega
        have heq : acc.length = limit := le_antisymm h hle
        rw [csUniqueIdsGo, if_neg (fun hc => absurd hc.2 (by omega)),
          csUniqueIdsGo_stuck rest limit acc hle, firstByKey, if_neg hmem,
          List.map_cons]
        exact (List.take_left' heq).symm

/-- The break-style unique-id loop computes the same truncation, provided
    the accumulator is still below the limit. -/
theorem directUniqueIdsGo_eq :
    ∀ (rounds : List RoundLite) (acc : List String) (limit : Nat),
      acc.length < limit →
      directUniqueIdsGo rounds limit acc =
        (acc ++ (firstByKey RoundLite.course_id rounds acc).map
          RoundLite.course_id).take limit := by
  intro rounds
  induction rounds with
  | nil =>
    intro acc limit h
    show acc = (acc ++ ([] : List RoundLite).map RoundLite.course_id).take limit
    rw [List.map_nil, List.append_nil, List.take_of_length_le (by omega)]
  | cons r rest ih =>
    intro acc limit h
    by_cases hmem : r.course_id ∈ acc
    · rw [directUniqueIdsGo, if_pos hmem, firstByKey, if_pos hmem]
      exact ih acc limit h
    · rw [directUniqueIdsGo, if_neg hmem, firstByKey, if_neg hmem]
      show (if limit ≤ (acc ++ [r.course_id]).length then acc ++ [r.course_id]
        else directUniqueIdsGo rest limit (acc ++ [r.course_id])) = _
      by_cases hstop : limit ≤ (acc ++ [r.course_id]).length
      · have hstop2 : limit ≤ acc.length + 1 := by simpa using hstop
        have heq2 : (acc ++ [r.course_id]).length = limit := by simp; omega
        rw [if_pos hstop, List.map_cons]
        conv_rhs => rw [List.append_cons]
        exact (List.take_left' heq2).symm
      · have hstop2 : ¬ limit ≤ acc.length + 1 := by simpa using hstop
        rw [if_neg hstop,
          ih (acc ++ [r.course_id]) limit (by simp; omega),
          List.map_cons, List.append_assoc, List.singleton_append]

/-- A consistent join resolves to a course with the round's course id. -/
theorem joinConsistent_spec (r : RoundJoin) (h : joinConsistent r = true) :
    ∃ c, r.courses = some c ∧ c.id = r.course_id := by
  rcases hc : r.courses with _ | c
  · rw [joinConsistent, hc] at h
    exact absurd h (by simp)
  · rw [joinConsistent, hc] at h
    exact ⟨c, rfl, by simpa using h⟩

/-- The get-courses extraction is firstByKey over the joined rows followed
    by the course projection. -/
theorem extractGo_eq :
    ∀ (rows : List RoundJoin) (seen : List String) (acc : List CourseOut),
      (∀ r ∈ rows, joinConsistent r = true) →
      extractRecentCoursesGo rows seen acc =
        acc ++ (firstByKey RoundJoin.course_id rows seen).filterMap outJ := by
  intro rows
  induction rows with
  | nil => intro seen acc h; simp [extractRecentCoursesGo, firstByKey]
  | cons r rest ih =>
    intro seen acc h
    obtain ⟨c, hc, hcid⟩ := joinConsistent_spec r (h r (List.mem_cons_self _ _))
    have hrest : ∀ x ∈ rest, joinConsistent x = true :=
      fun x hx => h x (List.mem_cons_of_mem _ hx)
    rw [extractRecentCoursesGo, hc]
    dsimp only
    by_cases hmem : RoundJoin.course_id r ∈ seen
    · have hcmem : c.id ∈ seen := by rw [hcid]; exact hmem
      rw [if_pos hcmem, firstByKey, if_pos hmem]
      exact ih seen acc hrest
    · have hcmem : c.id ∉ seen := by rw [hcid]; exact hmem
      rw [if_neg hcmem, firstByKey, if_neg hmem,
        List.filterMap_cons_some (show outJ r = some (mkCourseOut c) by simp [outJ, hc]),
        ih (seen ++ [c.id]) (acc ++ [mkCourseOut c]) hrest, hcid,
        List.append_assoc, List.singleton_append]

/-- Properties of the re-ordering step applied to the truncated firstByKey
    ids: distinct ids, bounded length, most-recent-first order. -/
theorem csOrderCourses_props (rounds : List RoundLite) (courses : List CourseLite)
    (limit : Nat) (ids : List String)
    (hids : ids = ((firstByKey RoundLite.course_id rounds []).map
      RoundLite.course_id).take limit)
    (hs : rounds.Pairwise (fun a b => b.created_at ≤ a.created_at)) :
    ((csOrderCourses ids courses).map (fun o => o.course.id)).Nodup ∧
    (csOrderCourses ids courses).length ≤ limit ∧
    (csOrderCourses ids courses).Pairwise
      (RecencyOrderBy RoundLite.course_id (fun r => r.created_at) rounds) := by
  have hfind : ∀ cid : String, ∀ c : CourseOut,
      (courses.find? (fun c2 => c2.id == cid)).map mkCourseOut = some c →
      c.course.id = cid := by
    intro cid c hc
    rcases Option.map_eq_some'.mp hc with ⟨c0, hc0, hmk⟩
    have hp := List.find?_some hc0
    rw [← hmk]
    exact eq_of_beq hp
  have hnodupids : ids.Nodup := by
    rw [hids]
    exact List.Nodup.sublist (List.take_sublist _ _) (firstByKey_nodup_keys _ _ _)
  refine ⟨?_, ?_, ?_⟩
  · unfold csOrderCourses
    rw [map_filterMap_eq_filter _ _ (fun x => x) ids (fun x _ c hc => hfind x c hc),
      List.map_id']
    exact List.Nodup.filter _ hnodupids
  · unfold csOrderCourses
    refine le_trans (List.length_filterMap_le _ _) ?_
    rw [hids]
    exact List.length_take_le _ _
  · have h1 := firstByKey_pairwise_latest RoundLite.course_id
      (fun r => r.created_at) rounds hs
    have h2 : ((firstByKey RoundLite.course_id rounds []).map
        RoundLite.course_id).Pairwise (fun cid1 cid2 =>
        ∃ t1, IsLatestIn RoundLite.course_id (fun r => r.created_at) rounds cid1 t1 ∧
          ∀ t2, IsLatestIn RoundLite.course_id (fun r => r.created_at) rounds cid2 t2 →
            t2 ≤ t1) := List.Pairwise.map RoundLite.course_id (fun a b hr => hr) h1
    have h3 : ids.Pairwise (fun cid1 cid2 =>
        ∃ t1, IsLatestIn RoundLite.course_id (fun r => r.created_at) rounds cid1 t1 ∧
          ∀ t2, IsLatestIn RoundLite.course_id (fun r => r.created_at) rounds cid2 t2 →
            t2 ≤ t1) := by
      rw [hids]
      exact List.Pairwise.sublist (List.take_sublist _ _) h2
    unfold csOrderCourses
    apply pairwise_filterMap_of _ ids h3
    intro a _ b _ hT x y hx hy
    unfold RecencyOrderBy
    rw [hfind a x hx, hfind b y hy]
    exact hT

/-- Properties of the get-courses recent extraction under sortedness and
    join integrity. -/
theorem extract_props (rows : List RoundJoin) (limit : Nat)
    (hs : rows.Pairwise (fun a b => b.created_at ≤ a.created_at))
    (hjoin : ∀ r ∈ rows, joinConsistent r = true) :
    ((extractRecentCourses rows limit).map (fun o => o.course.id)).Nodup ∧
    (extractRecentCourses rows limit).length ≤ limit ∧
    (extractRecentCourses rows limit).Pairwise
      (RecencyOrderBy RoundJoin.course_id (fun r => r.created_at) rows) := by
  have hget : extractRecentCourses rows limit =
      ((firstByKey RoundJoin.course_id rows []).filterMap outJ).take limit := by
    unfold extractRecentCourses
    rw [extractGo_eq rows [] [] hjoin, List.nil_append]
  have houtJ : ∀ r ∈ firstByKey RoundJoin.course_id rows [], ∀ c : CourseOut,
      outJ r = some c → c.course.id = RoundJoin.course_id r := by
    intro r hr c hc
    have hmem : r ∈ rows := (firstByKey_sublist _ rows []).mem hr
    obtain ⟨c0, hc0, hcid⟩ := joinConsistent_spec r (hjoin r hmem)
    rw [outJ, hc0] at hc
    simp only [Option.map_some'] at hc
    rw [← Option.some.inj hc]
    exact hcid
  refine ⟨?_, ?_, ?_⟩
  · rw [hget, List.map_take]
    apply List.Nodup.sublist (List.take_sublist _ _)
    rw [map_filterMap_eq_filter outJ (fun o => o.course.id) RoundJoin.course_id _ houtJ]
    apply List.Nodup.sublist (List.Sublist.map _ (List.filter_sublist _))
    exact firstByKey_nodup_keys _ _ _
  · rw [hget]
    exact List.length_take_le _ _
  · rw [hget]
    apply List.Pairwise.sublist (List.take_sublist _ _)
    have h1 := firstByKey_pairwise_latest RoundJoin.course_id
      (fun r => r.created_at) rows hs
    apply pairwise_filterMap_of _ _ h1
    intro a ha b hb hT x y hx hy
    unfold RecencyOrderBy
    rw [houtJ a ha x hx, houtJ b hb y hy]
    exact hT

/-- C10, counterexample: with requested limit 0 the standalone
    getRecentCourses variant (with its break after reaching the limit)
    still returns one course, so its result length exceeds the limit and
    the claim as stated is false. -/
theorem direct_recent_limit_zero_exceeds :
    getRecentCoursesDirect [c10Round] [c10Course] 0 = [mkCourseOut c10Course] ∧
    ¬((getRecentCoursesDirect [c10Round] [c10Course] 0).length ≤ 0) := by
  decide

/-- C10, amended: for any requested limit of at least one (the standalone
    variant returns one course at limit 0), every recent-courses
    computation returns distinct course ids, at most the limit of them,
    ordered by each course's most recent completed round with the most
    recently played course first, given the query's ordering of rounds
    (most recent first) and resolving joins. -/
theorem recent_courses_properties :
    ∀ (limit : Nat) (rows : List RoundJoin) (rounds : List RoundLite)
      (courses : List CourseLite),
      1 ≤ limit →
      rows.Pairwise (fun a b => b.created_at ≤ a.created_at) →
      (∀ r ∈ rows, joinConsistent r = true) →
      rounds.Pairwise (fun a b => b.created_at ≤ a.created_at) →
      (((extractRecentCourses rows limit).map (fun o => o.course.id)).Nodup ∧
       (extractRecentCourses rows limit).length ≤ limit ∧
       (extractRecentCourses rows limit).Pairwise
         (RecencyOrderBy RoundJoin.course_id (fun r => r.created_at) rows)) ∧
      (((getRecentCoursesFallback rounds courses limit).map
          (fun o => o.course.id)).Nodup ∧
       (getRecentCoursesFallback rounds courses limit).length ≤ limit ∧
       (getRecentCoursesFallback rounds courses limit).Pairwise
         (RecencyOrderBy RoundLite.course_id (fun r => r.created_at) rounds)) ∧
      (((getRecentCoursesDirect rounds courses limit).map
          (fun o => o.course.id)).Nodup ∧
       (getRecentCoursesDirect rounds courses limit).length ≤ limit ∧
       (getRecentCoursesDirect rounds courses limit).Pairwise
         (RecencyOrderBy RoundLite.course_id (fun r => r.created_at) rounds)) := by
  intro limit rows rounds courses hlim hsrows hjoin hsrounds
  refine ⟨extract_props rows limit hsrows hjoin, ?_, ?_⟩
  · unfold getRecentCoursesFallback
    by_cases hempty : rounds.isEmpty
    · rw [if_pos hempty]
      exact ⟨List.nodup_nil, by simp, List.Pairwise.nil⟩
    · rw [if_neg hempty]
      have hd : csUniqueIdsGo rounds limit [] =
          ((firstByKey RoundLite.course_id rounds []).map
            RoundLite.course_id).take limit := by
        rw [csUniqueIdsGo_eq rounds [] limit (by simp), List.nil_append]
      exact csOrderCourses_props rounds courses limit _ hd hsrounds
  · unfold getRecentCoursesDirect
    by_cases hempty : rounds.isEmpty
    · rw [if_pos hempty]
      exact ⟨List.nodup_nil, by simp, List.Pairwise.nil⟩
    · rw [if_neg hempty]
      have hd : directUniqueIdsGo rounds limit [] =
          ((firstByKey RoundLite.course_id rounds []).map
            RoundLite.course_id).take limit := by
        rw [directUniqueIdsGo_eq rounds [] limit (by simp; omega), List.nil_append]
      by_cases hids : (directUniqueIdsGo rounds limit []).isEmpty
      · rw [if_pos hids]
        exact ⟨List.nodup_nil, by simp, List.Pairwise.nil⟩
      · rw [if_neg hids]
        exact csOrderCourses_props rounds courses limit _ hd hsrounds

/-- C10, witness for the amended theorem: a single joined recent round
    yields a duplicate-free recent-courses list. -/
theorem recent_courses_properties_witness :
    ((extractRecentCourses [c10Join] 1).map (fun o => o.course.id)).Nodup :=
  (recent_courses_properties 1 [c10Join] [c10Round] [c10Course] (by decide)
    (by simp) (by decide) (by simp)).1.1
